import Mathlib

/-
  Verification of the Momentum task-planner core:
  a shallow embedding of the reactive task store (src/lib/momentum-store.ts),
  the storage layer (src/lib/storage.ts), the shared domain types
  (types/momentum), and the secondary task store built on the auto-plan
  scheduler.  Dates and timestamps are modelled at the granularity the code
  observes: calendar days are integers (days since an arbitrary epoch) and
  wall-clock instants carry a day plus a time-of-day component.  JavaScript
  object identity (the `!==` checks the store uses for change detection) is
  modelled by tagging heap-allocated values with a reference number; a fresh
  allocation carries a tag distinct from every live one, which theorems record
  as an explicit freshness hypothesis.
-/

namespace Momentum

/-- Priority levels of a task (types/momentum `Priority`). -/
inductive Priority where
  | priorityNone
  | low
  | medium
  | high
deriving DecidableEq, Repr

/-- Task lifecycle states (types/momentum `Status`). -/
inductive Status where
  | backlog
  | active
  | blocked
  | done
  | archived
deriving DecidableEq, Repr

/-- Scheduling buckets returned by `getTimeHorizon` (types/momentum `TimeHorizon`). -/
inductive TimeHorizon where
  | unscheduled
  | overdue
  | today
  | tomorrow
  | thisWeek
  | later
deriving DecidableEq, Repr

/-- Task record as used by the momentum store (types/momentum `Task`).
Timestamps are integers; `plannedDate` is a calendar day. -/
structure Task where
  id : String
  title : String
  priority : Priority
  status : Status
  createdAt : Int
  updatedAt : Option Int
  plannedDate : Option Int
  manualPinned : Bool
  orderIndex : Option Int
  atRisk : Bool
  completedAt : Option Int
deriving DecidableEq, Repr

/-- User settings; only the fields the store core reads are carried
(types/momentum `UserSettings`). -/
structure UserSettings where
  defaultPriority : Priority
  weekSpan : Int
deriving DecidableEq, Repr

/-- Default user settings (types/momentum `DEFAULT_USER_SETTINGS`). -/
def DEFAULT_USER_SETTINGS : UserSettings :=
  { defaultPriority := Priority.medium, weekSpan := 7 }

/-- Determine the scheduling bucket of a planned day relative to a reference
day (types/momentum `getTimeHorizon`, with both dates already truncated to
day granularity). -/
def getTimeHorizon (planned : Option Int) (refDay : Int) (weekSpan : Int) :
    TimeHorizon :=
  match planned with
  | Option.none => TimeHorizon.unscheduled
  | Option.some p =>
    let diff := p - refDay
    if diff < 0 then TimeHorizon.overdue
    else if diff = 0 then TimeHorizon.today
    else if diff = 1 then TimeHorizon.tomorrow
    else if diff < weekSpan then TimeHorizon.thisWeek
    else TimeHorizon.later

/-- Focus-mode sub-state of the store (momentum-store `FocusModeState`). -/
structure FocusModeState where
  enabled : Bool
  activeTaskId : Option String
  queue : List String
deriving DecidableEq, Repr

/-- Partial focus-mode value accepted by `createFocusModeState`
(momentum-store, the `Partial<FocusModeState>` argument). -/
structure FocusModeInit where
  enabled : Option Bool
  activeTaskId : Option (Option String)
  queue : Option (List String)
deriving DecidableEq, Repr

/-- The empty partial value (the `{}` default argument). -/
def emptyFocusInit : FocusModeInit :=
  { enabled := Option.none, activeTaskId := Option.none, queue := Option.none }

/-- View a full focus-mode state as a partial one (a call such as
`createFocusModeState(next.focusMode)` passes every field). -/
def FocusModeState.toInit (f : FocusModeState) : FocusModeInit :=
  { enabled := Option.some f.enabled
  , activeTaskId := Option.some f.activeTaskId
  , queue := Option.some f.queue }

/-- Normalize a partial focus-mode value (momentum-store
`createFocusModeState`): a disabled state always carries a null active id and
an empty queue. -/
def createFocusModeState (base : FocusModeInit) : FocusModeState :=
  let enabled := base.enabled.getD false
  let queue := base.queue.getD []
  { enabled := enabled
  , activeTaskId := if enabled then base.activeTaskId.getD Option.none else Option.none
  , queue := if enabled then queue else [] }

/-- Filter used by `computeFocusQueue`: non-done, non-archived tasks whose
planned day falls in the "today" bucket. -/
def focusEligible (settings : UserSettings) (today : Int) (t : Task) : Bool :=
  !decide (t.status = Status.done) && !decide (t.status = Status.archived) &&
    t.plannedDate.isSome &&
    decide (getTimeHorizon t.plannedDate today settings.weekSpan = TimeHorizon.today)

/-- Comparator of `computeFocusQueue` (pinned first, then planned day
ascending, then creation time ascending), as a signed weight. -/
def focusCompare (a b : Task) : Int :=
  let pinWeight : Int :=
    (if b.manualPinned then 1 else 0) - (if a.manualPinned then 1 else 0)
  if pinWeight ≠ 0 then pinWeight
  else
    let plannedA := a.plannedDate.getD 0
    let plannedB := b.plannedDate.getD 0
    if plannedA ≠ plannedB then plannedA - plannedB
    else a.createdAt - b.createdAt

/-- Stable insertion used by `sortStable`: an element passes every earlier
element the comparator places strictly before it. -/
def insertStable (lt : α → α → Bool) (x : α) : List α → List α
  | [] => [x]
  | y :: ys => if lt y x then y :: insertStable lt x ys else x :: y :: ys

/-- Stable sort (JavaScript `Array.prototype.sort` is stable). -/
def sortStable (lt : α → α → Bool) : List α → List α
  | [] => []
  | x :: xs => insertStable lt x (sortStable lt xs)

/-- Compute the ids of the tasks eligible for today's focus session, in
display order (momentum-store `computeFocusQueue`, with the wall-clock day
passed explicitly). -/
def computeFocusQueue (tasks : List Task) (settings : UserSettings)
    (today : Int) : List String :=
  ((sortStable (fun a b => focusCompare a b < 0)
      (tasks.filter (focusEligible settings today))).map Task.id)

/-- First pass of `mergeQueueOrder`: keep current-queue entries that are still
computed-eligible, in their current order, deduplicated (the `seen` set of the
source always holds exactly the pushed ids, so membership in the accumulator
models it). -/
def mergePass1 (comp : List String) : List String → List String → List String
  | [], merged => merged
  | id :: rest, merged =>
    if id ∈ comp ∧ id ∉ merged then mergePass1 comp rest (merged ++ [id])
    else mergePass1 comp rest merged

/-- Second pass of `mergeQueueOrder`: append newly eligible ids. -/
def mergePass2 : List String → List String → List String
  | [], merged => merged
  | id :: rest, merged =>
    if id ∉ merged then mergePass2 rest (merged ++ [id])
    else mergePass2 rest merged

/-- Merge the user's current queue order with the freshly computed eligible
set (momentum-store `mergeQueueOrder`). -/
def mergeQueueOrder (currentQueue computedQueue : List String) : List String :=
  mergePass2 computedQueue (mergePass1 computedQueue currentQueue [])

/-- Recompute the focus-mode state after a mutation (momentum-store
`reconcileFocusModeState`; only the candidate next state is read, the
`_previous` argument of the source is unused). -/
def reconcileFocusModeState (nextTasks : List Task) (nextSettings : UserSettings)
    (nextFocus : FocusModeState) (today : Int) : FocusModeState :=
  let normalized := createFocusModeState nextFocus.toInit
  if !normalized.enabled then normalized
  else
    let computedQueue := computeFocusQueue nextTasks nextSettings today
    let mergedQueue := mergeQueueOrder normalized.queue computedQueue
    let activeTaskId :=
      match normalized.activeTaskId with
      | Option.some a => if a ∈ mergedQueue then Option.some a else mergedQueue.head?
      | Option.none => mergedQueue.head?
    { enabled := true, activeTaskId := activeTaskId, queue := mergedQueue }

/-- The documented focus-mode invariant, as a decidable predicate: disabled
states carry no active task and an empty queue; enabled states have a null
active id only when the queue is empty, and otherwise an active id that is a
queue member. -/
def focusInvariant (f : FocusModeState) : Bool :=
  if f.enabled then
    match f.activeTaskId with
    | Option.none => f.queue.isEmpty
    | Option.some a => f.queue.contains a
  else decide (f.activeTaskId = Option.none) && f.queue.isEmpty

/-- Mock-session info held by the store (momentum-store `SessionInfo`). -/
structure SessionInfo where
  userId : Option String
  isAuthenticated : Bool
deriving DecidableEq, Repr

/-- Default (signed-out) session (momentum-store `createDefaultSession`). -/
def createDefaultSession : SessionInfo :=
  { userId := Option.none, isAuthenticated := false }

/-- A JavaScript heap value: the payload together with its object identity.
Two values are the same reference exactly when their tags agree; `!==` on
objects is tag inequality. -/
structure Ref (α : Type) where
  ref : Nat
  val : α
deriving DecidableEq, Repr

/-- Full store state (momentum-store `MomentumState`).  Object-typed fields
carry reference tags because the store's change detection compares them with
`!==`; `autoPlanEnabled` is a primitive compared by value. -/
structure MomentumState where
  tasks : Ref (List Task)
  settings : Ref UserSettings
  focusMode : Ref FocusModeState
  autoPlanEnabled : Bool
  session : Ref SessionInfo
deriving DecidableEq, Repr

/-- A `Partial<MomentumState>` patch: a field is `Option.some` exactly when
the patch object owns that key. -/
structure StatePatch where
  tasks : Option (Ref (List Task))
  settings : Option (Ref UserSettings)
  focusMode : Option (Ref FocusModeState)
  autoPlanEnabled : Option Bool
  session : Option (Ref SessionInfo)
deriving DecidableEq, Repr

/-- The empty patch. -/
def emptyPatch : StatePatch :=
  { tasks := Option.none, settings := Option.none, focusMode := Option.none
  , autoPlanEnabled := Option.none, session := Option.none }

/-- Spread a patch over the previous state (the `{ ...previous, ...patch }`
merge in `setState`). -/
def applyPatch (s : MomentumState) (p : StatePatch) : MomentumState :=
  { tasks := p.tasks.getD s.tasks
  , settings := p.settings.getD s.settings
  , focusMode := p.focusMode.getD s.focusMode
  , autoPlanEnabled := p.autoPlanEnabled.getD s.autoPlanEnabled
  , session := p.session.getD s.session }

/-- Per-call options of `setState` (momentum-store `SetStateOptions`):
`persist` is the resolved value of `options.persist !== false`. -/
structure SetStateOptions where
  persist : Bool
  skipAutoPlan : Bool
deriving DecidableEq, Repr

/-- Default options (`{}`): persist, and do not suppress auto-plan. -/
def defaultOptions : SetStateOptions :=
  { persist := true, skipAutoPlan := false }

/-- Everything observable about one `setState` call: the state held
afterwards, whether a commit happened, whether the snapshot was persisted,
whether subscribers were notified, and whether the auto-plan callback was
invoked. -/
structure SetStateResult where
  state : MomentumState
  committed : Bool
  persisted : Bool
  notified : Bool
  autoPlanRan : Bool
deriving DecidableEq, Repr

/-- Decide whether the scheduler callback fires after a commit
(momentum-store `maybeRunAutoPlan`); `callbackPresent` models whether
`setAutoPlanCallback` registered a callback. -/
def maybeRunAutoPlan (prev next : MomentumState) (patch : StatePatch)
    (options : SetStateOptions) (callbackPresent : Bool) : Bool :=
  if options.skipAutoPlan || !callbackPresent || !next.autoPlanEnabled then false
  else
    let tasksChanged :=
      patch.tasks.isSome && decide (prev.tasks.ref ≠ next.tasks.ref)
    let settingsChanged :=
      patch.settings.isSome && decide (prev.settings.ref ≠ next.settings.ref)
    tasksChanged || settingsChanged

/-- One `setState` call (momentum-store `setState`).  The updater has already
been applied to the previous state, yielding `patchOpt` (`Option.none` models
an updater that returned `null`).  `freshFM` is the identity of the object
freshly allocated for the reconciled focus-mode value, `today` the wall-clock
day at the call, and `callbackPresent` whether an auto-plan callback is
registered. -/
def setState (prev : MomentumState) (patchOpt : Option StatePatch)
    (options : SetStateOptions) (freshFM : Nat) (today : Int)
    (callbackPresent : Bool) : SetStateResult :=
  match patchOpt with
  | Option.none =>
    { state := prev, committed := false, persisted := false, notified := false
    , autoPlanRan := false }
  | Option.some patch =>
    let next0 := applyPatch prev patch
    let next : MomentumState :=
      { next0 with
        focusMode :=
          { ref := freshFM
          , val := reconcileFocusModeState next0.tasks.val next0.settings.val
              next0.focusMode.val today } }
    let focusModeChanged := decide (prev.focusMode.ref ≠ next.focusMode.ref)
    let keyChanged :=
      (patch.tasks.isSome && decide (prev.tasks.ref ≠ next.tasks.ref)) ||
      (patch.settings.isSome && decide (prev.settings.ref ≠ next.settings.ref)) ||
      (patch.focusMode.isSome && decide (prev.focusMode.ref ≠ next.focusMode.ref)) ||
      (patch.autoPlanEnabled.isSome &&
        decide (prev.autoPlanEnabled ≠ next.autoPlanEnabled)) ||
      (patch.session.isSome && decide (prev.session.ref ≠ next.session.ref))
    let changed := focusModeChanged || keyChanged
    if changed then
      { state := next, committed := true, persisted := options.persist
      , notified := true
      , autoPlanRan := maybeRunAutoPlan prev next patch options callbackPresent }
    else
      { state := prev, committed := false, persisted := false, notified := false
      , autoPlanRan := false }

/-- Local-storage backend (storage.ts): `available` models whether
`getLocalStorage` found a usable `window.localStorage`, `failing` a backend
whose `setItem` throws (quota exceeded), and `data` the stored key-value
pairs. -/
structure StorageBackend where
  available : Bool
  failing : Bool
  data : List (String × String)
deriving DecidableEq, Repr

/-- Insert or replace a key in the backing association list. -/
def setEntry : List (String × String) → String → String → List (String × String)
  | [], k, v => [(k, v)]
  | (k', v') :: rest, k, v =>
    if k' = k then (k, v) :: rest else (k', v') :: setEntry rest k v

/-- Look a key up in the backing association list. -/
def lookupEntry : List (String × String) → String → Option String
  | [], _ => Option.none
  | (k', v') :: rest, k => if k' = k then Option.some v' else lookupEntry rest k

/-- Read a raw string (storage.ts `safeStorage.getItem`): `null` when no
storage is available or the key is absent. -/
def getItemRaw (b : StorageBackend) (k : String) : Option String :=
  if b.available then lookupEntry b.data k else Option.none

/-- Write a raw string (storage.ts `safeStorage.setItem`): a silent no-op when
storage is unavailable, an exception when the backend is failing. -/
def setItemRaw (b : StorageBackend) (k v : String) : Except Unit StorageBackend :=
  if !b.available then Except.ok b
  else if b.failing then Except.error ()
  else Except.ok { b with data := setEntry b.data k v }

/-- The body of `saveJSON` before the `try`/`catch` (storage.ts):
serialization failure (`stringify` returning `Option.none`, e.g. an
unserializable value) or a throwing `setItem` surface as errors here. -/
def saveJSONBody (stringify : α → Option String) (b : StorageBackend)
    (k : String) (v : α) : Except Unit StorageBackend :=
  match stringify v with
  | Option.none => Except.error ()
  | Option.some s => setItemRaw b k s

/-- Best-effort JSON write (storage.ts `saveJSON`): every failure of the body
is swallowed, leaving the backend unchanged. -/
def saveJSON (stringify : α → Option String) (b : StorageBackend)
    (k : String) (v : α) : StorageBackend :=
  match saveJSONBody stringify b k v with
  | Except.ok b' => b'
  | Except.error _ => b

/-- Tolerant JSON read (storage.ts `loadJSON`): absent or empty raw data and
parse failures all fall back. -/
def loadJSON (parse : String → Option α) (b : StorageBackend) (k : String)
    (fallback : α) : α :=
  match getItemRaw b k with
  | Option.none => fallback
  | Option.some raw =>
    if raw = "" then fallback else (parse raw).getD fallback

/-- The storage key of the store snapshot (momentum-store `STORAGE_KEY`). -/
def STORAGE_KEY : String := "momentum/state"

/-- Partial persisted settings (hydration spreads them over the defaults). -/
structure UserSettingsInit where
  defaultPriority : Option Priority
  weekSpan : Option Int
deriving DecidableEq, Repr

/-- Merge persisted settings over defaults (the
`{ ...DEFAULT_USER_SETTINGS, ...persistedSettings }` spread). -/
def mergeSettingsInit (base : UserSettings) (p : UserSettingsInit) : UserSettings :=
  { defaultPriority := p.defaultPriority.getD base.defaultPriority
  , weekSpan := p.weekSpan.getD base.weekSpan }

/-- The persisted focus-mode field, which older snapshots stored as a bare
boolean (momentum-store `PersistedMomentumState.focusMode`). -/
inductive PersistedFocus where
  | flag (b : Bool)
  | fmState (f : FocusModeInit)
  | absent
deriving DecidableEq, Repr

/-- Normalize the persisted focus-mode field into `createFocusModeState`
input. -/
def focusInitOfPersisted : PersistedFocus → FocusModeInit
  | PersistedFocus.flag b =>
    { enabled := Option.some b, activeTaskId := Option.none, queue := Option.none }
  | PersistedFocus.fmState f => f
  | PersistedFocus.absent => emptyFocusInit

/-- Snapshot shape written to the local cache (momentum-store
`PersistedMomentumState`). -/
structure PersistedMomentumState where
  tasks : List Task
  settings : UserSettingsInit
  focusMode : PersistedFocus
  autoPlanEnabled : Bool
  session : Option SessionInfo
deriving DecidableEq, Repr

/-- Fresh default state (momentum-store `createDefaultState`); initial
allocations carry the fixed reference tags 0 to 3. -/
def createDefaultState : MomentumState :=
  { tasks := { ref := 0, val := [] }
  , settings := { ref := 1, val := DEFAULT_USER_SETTINGS }
  , focusMode := { ref := 2, val := createFocusModeState emptyFocusInit }
  , autoPlanEnabled := true
  , session := { ref := 3, val := createDefaultSession } }

/-- Build the process-start state from the decoded snapshot (momentum-store
`hydrateState`, after `loadJSON` resolved to `persisted`). -/
def hydrateState (persisted : Option PersistedMomentumState) (today : Int) :
    MomentumState :=
  match persisted with
  | Option.none => createDefaultState
  | Option.some p =>
    let base : MomentumState :=
      { tasks := { ref := 0, val := p.tasks }
      , settings := { ref := 1, val := mergeSettingsInit DEFAULT_USER_SETTINGS p.settings }
      , focusMode :=
          { ref := 2, val := createFocusModeState (focusInitOfPersisted p.focusMode) }
      , autoPlanEnabled := p.autoPlanEnabled
      , session := { ref := 3, val := createDefaultSession } }
    { base with
      focusMode :=
        { ref := 2
        , val := reconcileFocusModeState base.tasks.val base.settings.val
            base.focusMode.val today }
      , session :=
        { ref := 3
        , val := match p.session with
                 | Option.some s => s
                 | Option.none => createDefaultSession } }

/-- Hydration from a storage backend (momentum-store `hydrateState` together
with storage.ts `loadJSON`); `parse` models `JSON.parse` specialised to the
snapshot type, with `Option.none` for both a thrown parse error and a
successfully parsed `null`. -/
def hydrateFromStorage (b : StorageBackend)
    (parse : String → Option PersistedMomentumState) (today : Int) :
    MomentumState :=
  hydrateState
    (loadJSON (fun raw => (parse raw).map Option.some) b STORAGE_KEY Option.none)
    today

/-- A `setState` call together with its persistence side effect: the snapshot
is written through `saveJSON` exactly when the commit happened with the
`persist` option left on (momentum-store `setState` calling `persistState`). -/
def setStateWithStorage (stringify : MomentumState → Option String)
    (b : StorageBackend) (prev : MomentumState) (patchOpt : Option StatePatch)
    (options : SetStateOptions) (freshFM : Nat) (today : Int)
    (callbackPresent : Bool) : SetStateResult × StorageBackend :=
  let r := setState prev patchOpt options freshFM today callbackPresent
  if r.committed && options.persist then
    (r, saveJSON stringify b STORAGE_KEY r.state)
  else (r, b)

/-- Maintain the bookkeeping timestamps of a task record (momentum-store
`withTimestamps`); for an update (`isNew = false`) only `updatedAt` is
stamped. -/
def withTimestamps (t : Task) (isNew : Bool) (now : Int) : Task :=
  { t with
    createdAt := t.createdAt
  , updatedAt := if isNew then t.updatedAt else Option.some now }

/-- A `Partial<Task>` patch carrying the fields the store operations use. -/
structure TaskPatch where
  status : Option Status
  completedAt : Option (Option Int)
  manualPinned : Option Bool
  plannedDate : Option (Option Int)
deriving DecidableEq, Repr

/-- Spread a task patch over a task (`{ ...task, ...patch }`). -/
def applyTaskPatch (t : Task) (p : TaskPatch) : Task :=
  { t with
    status := p.status.getD t.status
  , completedAt := p.completedAt.getD t.completedAt
  , manualPinned := p.manualPinned.getD t.manualPinned
  , plannedDate := p.plannedDate.getD t.plannedDate }

/-- Replace the first element satisfying `p` (the `findIndex` plus
index-assignment idiom of `updateTask`); `Option.none` when no element
matches (`findIndex` returned -1). -/
def updateFirst (p : α → Bool) (f : α → α) : List α → Option (List α)
  | [] => Option.none
  | x :: xs =>
    if p x then Option.some (f x :: xs)
    else (updateFirst p f xs).map (fun ys => x :: ys)

/-- The updater of `updateTask` (momentum-store): `null` when the target id
does not occur, otherwise a patch holding a freshly allocated task array with
the matched entry merged, re-id'd and timestamped. -/
def updateTaskUpdater (taskId : String) (p : TaskPatch) (freshTasks : Nat)
    (now : Int) (current : MomentumState) : Option StatePatch :=
  match updateFirst (fun t => t.id == taskId)
      (fun t => withTimestamps { applyTaskPatch t p with id := taskId } false now)
      current.tasks.val with
  | Option.none => Option.none
  | Option.some nextTasks =>
    Option.some { emptyPatch with tasks := Option.some { ref := freshTasks, val := nextTasks } }

/-- The operation `updateTask(taskId, patch)` (momentum-store). -/
def updateTaskOp (prev : MomentumState) (taskId : String) (p : TaskPatch)
    (options : SetStateOptions) (freshTasks freshFM : Nat) (today now : Int)
    (callbackPresent : Bool) : SetStateResult :=
  setState prev (updateTaskUpdater taskId p freshTasks now prev) options freshFM
    today callbackPresent

/-- The operation `removeTask(taskId)` (momentum-store): its updater always
produces a freshly allocated filtered array, whether or not the id occurs. -/
def removeTaskOp (prev : MomentumState) (taskId : String)
    (freshTasks freshFM : Nat) (today : Int) (callbackPresent : Bool) :
    SetStateResult :=
  setState prev
    (Option.some
      { emptyPatch with
        tasks := Option.some
          { ref := freshTasks
          , val := prev.tasks.val.filter (fun t => !(t.id == taskId)) } })
    defaultOptions freshFM today callbackPresent

/-- The operation `updateTaskStatus(taskId, status)` (momentum-store): a map
over the task array that overwrites `status` and restamps `updatedAt`, and
touches nothing else — in particular not `completedAt`. -/
def updateTaskStatusOp (prev : MomentumState) (taskId : String) (status : Status)
    (freshTasks freshFM : Nat) (today now : Int) (callbackPresent : Bool) :
    SetStateResult :=
  setState prev
    (Option.some
      { emptyPatch with
        tasks := Option.some
          { ref := freshTasks
          , val := prev.tasks.val.map (fun t =>
              if t.id == taskId then withTimestamps { t with status := status } false now
              else t) } })
    defaultOptions freshFM today callbackPresent

/-- The patch the board's status-change handler builds before calling
`updateTask` (task-board `handleStatusChange`): moving to done stamps
`completedAt` and clears the pin, any other status clears `completedAt`. -/
def handleStatusChangePatch (status : Status) (now : Int) : TaskPatch :=
  if status = Status.done then
    { status := Option.some status
    , completedAt := Option.some (Option.some now)
    , manualPinned := Option.some false
    , plannedDate := Option.none }
  else
    { status := Option.some status
    , completedAt := Option.some Option.none
    , manualPinned := Option.none
    , plannedDate := Option.none }

/-- The patch `completeFocusTask` passes to `updateTask` (momentum-store):
done status, a fresh completion stamp, pin cleared. -/
def completeFocusPatch (now : Int) : TaskPatch :=
  { status := Option.some Status.done
  , completedAt := Option.some (Option.some now)
  , manualPinned := Option.some false
  , plannedDate := Option.none }

/-- The demotion patch `skipFocusTask` and `focusNextTask` pass to
`updateTask`: back to backlog with the completion stamp cleared. -/
def focusDemotePatch : TaskPatch :=
  { status := Option.some Status.backlog
  , completedAt := Option.some Option.none
  , manualPinned := Option.none
  , plannedDate := Option.none }

/-- The operation `completeFocusTask()` (momentum-store): guarded read of the
active focus task, then `updateTask` with `completeFocusPatch`. -/
def completeFocusTask (prev : MomentumState) (freshTasks freshFM : Nat)
    (today now : Int) (callbackPresent : Bool) : SetStateResult :=
  match prev.focusMode.val.enabled, prev.focusMode.val.activeTaskId with
  | true, Option.some a =>
    match prev.tasks.val.find? (fun t => t.id == a) with
    | Option.none =>
      { state := prev, committed := false, persisted := false, notified := false
      , autoPlanRan := false }
    | Option.some activeTask =>
      if activeTask.status = Status.done then
        { state := prev, committed := false, persisted := false, notified := false
        , autoPlanRan := false }
      else
        updateTaskOp prev a (completeFocusPatch now) defaultOptions freshTasks
          freshFM today now callbackPresent
  | _, _ =>
    { state := prev, committed := false, persisted := false, notified := false
    , autoPlanRan := false }

/-- The rotation updater of `skipFocusTask` (momentum-store): bail out unless
focus mode is still enabled with the same active id and at least two queued
entries; otherwise splice the active id out and push it to the back, making
the new front active.  `freshFocus` is the identity of the focus-mode object
the updater allocates. -/
def skipFocusUpdater (a : String) (freshFocus : Nat) (current : MomentumState) :
    Option StatePatch :=
  if current.focusMode.val.enabled = false then Option.none
  else if current.focusMode.val.queue.length ≤ 1 then Option.none
  else if current.focusMode.val.activeTaskId ≠ Option.some a then Option.none
  else if a ∈ current.focusMode.val.queue then
    let queue := current.focusMode.val.queue.erase a ++ [a]
    Option.some
      { emptyPatch with
        focusMode := Option.some
          { ref := freshFocus
          , val :=
            { enabled := current.focusMode.val.enabled
            , activeTaskId := Option.some (queue.headD a)
            , queue := queue } } }
  else Option.none

/-- The operation `skipFocusTask()` (momentum-store): guarded rotation via
`setState` (auto-plan suppressed), then — regardless of whether the rotation
committed — a demotion `updateTask` whenever the pre-call active task had
status active. -/
def skipFocusTask (prev : MomentumState) (freshFocus freshFM1 freshTasks freshFM2 : Nat)
    (today now : Int) (callbackPresent : Bool) : MomentumState :=
  match prev.focusMode.val.enabled, prev.focusMode.val.activeTaskId with
  | true, Option.some a =>
    let activeTask := prev.tasks.val.find? (fun t => t.id == a)
    let s1 := (setState prev (skipFocusUpdater a freshFocus prev)
      { persist := true, skipAutoPlan := true } freshFM1 today callbackPresent).state
    match activeTask with
    | Option.some ta =>
      if ta.status = Status.active then
        (updateTaskOp s1 a focusDemotePatch defaultOptions freshTasks freshFM2
          today now callbackPresent).state
      else s1
    | Option.none => s1
  | _, _ => prev

/-- The advance updater of `focusNextTask` (momentum-store): keep the queue,
move `activeTaskId` one position forward cyclically. -/
def focusNextUpdater (a : String) (freshFocus : Nat) (current : MomentumState) :
    Option StatePatch :=
  if current.focusMode.val.enabled = false then Option.none
  else if current.focusMode.val.activeTaskId ≠ Option.some a then Option.none
  else
    match current.focusMode.val.queue.indexOf? a with
    | Option.none => Option.none
    | Option.some index =>
      let queue := current.focusMode.val.queue
      let nextIndex := (index + 1) % queue.length
      Option.some
        { emptyPatch with
          focusMode := Option.some
            { ref := freshFocus
            , val :=
              { enabled := current.focusMode.val.enabled
              , activeTaskId :=
                ((queue.get? nextIndex).map Option.some).getD
                  current.focusMode.val.activeTaskId
              , queue := queue } } }

/-- The operation `focusNextTask()` (momentum-store): unlike `skipFocusTask`,
a queue of at most one entry returns before either the advance or the
demotion. -/
def focusNextTask (prev : MomentumState) (freshFocus freshFM1 freshTasks freshFM2 : Nat)
    (today now : Int) (callbackPresent : Bool) : MomentumState :=
  match prev.focusMode.val.enabled, prev.focusMode.val.activeTaskId with
  | true, Option.some a =>
    if prev.focusMode.val.queue.length ≤ 1 then prev
    else
      let activeTask := prev.tasks.val.find? (fun t => t.id == a)
      let s1 := (setState prev (focusNextUpdater a freshFocus prev)
        { persist := true, skipAutoPlan := true } freshFM1 today callbackPresent).state
      match activeTask with
      | Option.some ta =>
        if ta.status = Status.active then
          (updateTaskOp s1 a focusDemotePatch defaultOptions freshTasks freshFM2
            today now callbackPresent).state
        else s1
      | Option.none => s1
  | _, _ => prev

/-- A wall-clock instant: a calendar day plus a time-of-day component.  The
scheduler contract truncates its reference instant to day granularity. -/
structure Instant where
  day : Int
  msOfDay : Int
deriving DecidableEq, Repr

/-- Scheduler settings (types `AutoPlanSettings`); the override maps are
association lists keyed by calendar day and by weekday index 0 to 6. -/
structure AutoPlanSettings where
  dailyCapacityMinutes : Int
  minChunkMinutes : Int
  planningHorizonDays : Int
  capacityOverrides : List (Int × Int)
  weekdayCapacities : List (Int × Int)
deriving DecidableEq, Repr

/-- Per-day ledger entry (types `CapacityUsage`). -/
structure CapacityUsage where
  total : Int
  used : Int
  remaining : Int
deriving DecidableEq, Repr

/-- A timeboxed slice of a task's schedule (types `TaskPart`). -/
structure TaskPart where
  id : String
  taskId : String
  sequence : Int
  plannedDate : Int
  durationMinutes : Int
  isPinned : Bool
  isAutoGenerated : Bool
deriving DecidableEq, Repr

/-- Scheduler task record (types `PlannedTask`); dates are calendar days. -/
structure PTask where
  id : String
  title : String
  priority : Priority
  status : Status
  createdAt : Int
  dueDate : Option Int
  durationMinutes : Int
  plannedDate : Option Int
  manualPinned : Bool
  orderIndex : Option Int
  atRisk : Bool
  parts : Option (List TaskPart)
deriving DecidableEq, Repr

/-- Priority weights (types `PRIORITY_WEIGHTS`). -/
def priorityWeight : Priority → Int
  | Priority.priorityNone => 0
  | Priority.low => 1
  | Priority.medium => 5
  | Priority.high => 10

/-- Look an integer key up in an integer-keyed association list. -/
def lookupInt : List (Int × α) → Int → Option α
  | [], _ => Option.none
  | (k', v') :: rest, k => if k' = k then Option.some v' else lookupInt rest k

/-- Weekday index of a calendar day (0 to 6). -/
def weekdayOf (day : Int) : Int := day % 7

/-- Modelled from the spec: the Capacity Model `capacityForDay` of the
missing `lib/auto-plan` module — exact-date override first, then weekday
override, then the default budget, each floored at zero. -/
def capacityForDay (settings : AutoPlanSettings) (day : Int) : Int :=
  match lookupInt settings.capacityOverrides day with
  | Option.some v => max 0 v
  | Option.none =>
    match lookupInt settings.weekdayCapacities (weekdayOf day) with
    | Option.some v => max 0 v
    | Option.none => max 0 settings.dailyCapacityMinutes

/-- Build a ledger entry with `remaining` recomputed from `total` and
`used`. -/
def mkUsage (total used : Int) : CapacityUsage :=
  { total := total, used := used, remaining := max 0 (total - used) }

/-- Replace the entry of a day in the ledger. -/
def setDay : List (Int × CapacityUsage) → Int → CapacityUsage →
    List (Int × CapacityUsage)
  | [], d, u => [(d, u)]
  | (d', u') :: rest, d, u =>
    if d' = d then (d, u) :: rest else (d', u') :: setDay rest d u

/-- Modelled from the spec: reserve minutes against a day of the ledger,
creating the entry from the Capacity Model when the day was not pre-seeded. -/
def reserveDay (settings : AutoPlanSettings) (ledger : List (Int × CapacityUsage))
    (day minutes : Int) : List (Int × CapacityUsage) :=
  match lookupInt ledger day with
  | Option.some u => setDay ledger day (mkUsage u.total (u.used + minutes))
  | Option.none => ledger ++ [(day, mkUsage (capacityForDay settings day) minutes)]

/-- Modelled from the spec: classification accumulator — the reassignment
queue and the reservation ledger. -/
structure ClassifyAcc where
  queue : List PTask
  ledger : List (Int × CapacityUsage)
deriving DecidableEq, Repr

/-- Modelled from the spec: classify one task (step 3 of the auto-plan
algorithm) — overdue placements are cleared and enqueued, unscheduled backlog
is enqueued, placements inside the horizon become fixed reservations, and
everything else is left alone. -/
def classifyStep (settings : AutoPlanSettings) (today horizonDays : Int)
    (acc : ClassifyAcc) (t : PTask) : ClassifyAcc :=
  if t.status = Status.done ∨ t.status = Status.archived then acc
  else
    match t.plannedDate with
    | Option.none =>
      if t.status = Status.backlog then { acc with queue := acc.queue ++ [t] }
      else acc
    | Option.some p =>
      if p < today then
        { acc with
          queue := acc.queue ++
            [{ t with plannedDate := Option.none, manualPinned := false }] }
      else if p < today + horizonDays then
        { acc with ledger := reserveDay settings acc.ledger p t.durationMinutes }
      else acc

/-- Modelled from the spec: strict ascending order on optional due dates with
absent dates sorting last. -/
def dueLt : Option Int → Option Int → Bool
  | Option.some x, Option.some y => decide (x < y)
  | Option.some _, Option.none => true
  | Option.none, _ => false

/-- Modelled from the spec: the total order of the reassignment queue — due
date ascending (absent last), priority weight descending, duration
descending, creation time ascending, id as final tie-break. -/
def autoPlanLt (a b : PTask) : Bool :=
  if dueLt a.dueDate b.dueDate then true
  else if dueLt b.dueDate a.dueDate then false
  else if priorityWeight b.priority < priorityWeight a.priority then true
  else if priorityWeight a.priority < priorityWeight b.priority then false
  else if b.durationMinutes < a.durationMinutes then true
  else if a.durationMinutes < b.durationMinutes then false
  else if a.createdAt < b.createdAt then true
  else if b.createdAt < a.createdAt then false
  else decide (a.id < b.id)

/-- What the greedy walk decides for one queued task. -/
structure PlanAssignment where
  plannedDate : Option Int
  atRisk : Bool
  orderIndex : Int
deriving DecidableEq, Repr

/-- Look an assignment up by task id. -/
def lookupAssignment : List (String × PlanAssignment) → String → Option PlanAssignment
  | [], _ => Option.none
  | (k', v') :: rest, k => if k' = k then Option.some v' else lookupAssignment rest k

/-- Modelled from the spec: earliest day of the horizon whose remaining
capacity covers the whole duration. -/
def findFitDay (ledger : List (Int × CapacityUsage)) (days : List Int)
    (minutes : Int) : Option Int :=
  days.find? (fun d =>
    match lookupInt ledger d with
    | Option.some u => decide (minutes ≤ u.remaining)
    | Option.none => false)

/-- Modelled from the spec: the greedy earliest-fit walk (step 5) over the
sorted reassignment queue, threading the ledger and the sequential order
index. -/
def walkQueue (settings : AutoPlanSettings) (days : List Int) (today : Int) :
    List PTask → List (Int × CapacityUsage) → Int →
    List (String × PlanAssignment) × List (Int × CapacityUsage)
  | [], ledger, _ => ([], ledger)
  | t :: rest, ledger, idx =>
    if t.durationMinutes = 0 then
      let risk := match t.dueDate with
        | Option.some d => decide (d < today)
        | Option.none => false
      let (tail, ledgerOut) := walkQueue settings days today rest ledger (idx + 1)
      ((t.id, { plannedDate := Option.some today, atRisk := risk, orderIndex := idx }) :: tail,
        ledgerOut)
    else
      match findFitDay ledger days t.durationMinutes with
      | Option.some d =>
        let ledger' := reserveDay settings ledger d t.durationMinutes
        let risk := match t.dueDate with
          | Option.some dd => decide (dd < d)
          | Option.none => false
        let (tail, ledgerOut) := walkQueue settings days today rest ledger' (idx + 1)
        ((t.id, { plannedDate := Option.some d, atRisk := risk, orderIndex := idx }) :: tail,
          ledgerOut)
      | Option.none =>
        let (tail, ledgerOut) := walkQueue settings days today rest ledger (idx + 1)
        ((t.id, { plannedDate := Option.none, atRisk := true, orderIndex := idx }) :: tail,
          ledgerOut)

/-- Modelled from the spec: merge the walk's decisions back into the task
list — done and archived tasks get `atRisk` reset, reassigned tasks receive
their new placement, order index and risk flag with the pin cleared, fixed
tasks pass through untouched. -/
def applyPlanResult (assignments : List (String × PlanAssignment)) (t : PTask) :
    PTask :=
  if t.status = Status.done ∨ t.status = Status.archived then
    { t with atRisk := false }
  else
    match lookupAssignment assignments t.id with
    | Option.some a =>
      { t with
        plannedDate := a.plannedDate
      , manualPinned := false
      , atRisk := a.atRisk
      , orderIndex := Option.some a.orderIndex }
    | Option.none => t

/-- Result of one scheduling pass: the annotated task list and the per-day
capacity ledger. -/
structure PlanResult where
  tasks : List PTask
  capacityUsage : List (Int × CapacityUsage)
deriving DecidableEq, Repr

/-- Modelled from the spec: the day-bucket scheduling engine `autoPlan` of
the missing `lib/auto-plan` module, at day granularity — horizon clamped to
1..21 days, ledger seeded from the Capacity Model, tasks classified, the
reassignment queue sorted by the urgency total order and walked greedily
earliest-fit, and every ledger entry's `remaining` recomputed before
returning. -/
def autoPlanCore (tasks : List PTask) (settings : AutoPlanSettings)
    (today : Int) : PlanResult :=
  let horizonDays : Int := min 21 (max 1 settings.planningHorizonDays)
  let days := (List.range horizonDays.toNat).map (fun i => today + (i : Int))
  let seeded := days.map (fun d => (d, mkUsage (capacityForDay settings d) 0))
  let acc := tasks.foldl (classifyStep settings today horizonDays)
    { queue := [], ledger := seeded }
  let queue := sortStable autoPlanLt acc.queue
  let walked := walkQueue settings days today queue acc.ledger 0
  { tasks := tasks.map (applyPlanResult walked.1)
  , capacityUsage := walked.2.map (fun e => (e.1, mkUsage e.2.total e.2.used)) }

/-- Modelled from the spec: the public scheduler entry point — the reference
instant is truncated to its calendar day before anything else. -/
def autoPlan (tasks : List PTask) (settings : AutoPlanSettings)
    (reference : Instant) : PlanResult :=
  autoPlanCore tasks settings reference.day

/-- Deep-copy of a scheduler task (task store `cloneTask`); the only
observable effect on the value is that a missing `parts` array becomes an
empty one. -/
def cloneTask (t : PTask) : PTask :=
  { t with parts := Option.some (t.parts.getD []) }

/-- State of the scheduler-driven task store (task store
`TaskStoreState`). -/
structure TaskStoreState where
  tasks : List PTask
  settings : AutoPlanSettings
  capacityUsage : List (Int × CapacityUsage)
  lastPlannedAt : Option Instant
deriving DecidableEq, Repr

/-- Re-run the scheduler over the held state (task store `applyAutoPlan`):
the reference instant is the caller's `today` or the wall clock, and only
`tasks` and `settings` feed the scheduling pass. -/
def applyAutoPlan (s : TaskStoreState) (todayOpt : Option Instant)
    (wallClock : Instant) : TaskStoreState :=
  let reference := todayOpt.getD wallClock
  let planned := autoPlan (s.tasks.map cloneTask) s.settings reference
  { s with
    tasks := planned.tasks
  , capacityUsage := planned.capacityUsage
  , lastPlannedAt := Option.some reference }

/-- The scheduler store's `removeTask` (task store): when no task carries the
id the filtered list has the original length and the call returns without
committing, replanning or notifying (`Option.none`); otherwise the filtered
state is replanned. -/
def part6RemoveTask (s : TaskStoreState) (id : String) (todayOpt : Option Instant)
    (wallClock : Instant) : Option TaskStoreState :=
  let filtered := s.tasks.filter (fun t => !(t.id == id))
  if filtered.length = s.tasks.length then Option.none
  else Option.some (applyAutoPlan { s with tasks := filtered } todayOpt wallClock)

/-! Lemmas about the queue merge. -/

theorem mergePass2_mem (l acc : List String) (x : String) :
    x ∈ mergePass2 l acc ↔ x ∈ acc ∨ x ∈ l := by
  induction l generalizing acc with
  | nil => simp [mergePass2]
  | cons id rest ih =>
    simp only [mergePass2]
    by_cases hmem : id ∈ acc
    · rw [if_neg (not_not_intro hmem), ih]
      simp only [List.mem_cons]
      constructor
      · rintro (hx | hx)
        · exact Or.inl hx
        · exact Or.inr (Or.inr hx)
      · rintro (hx | rfl | hx)
        · exact Or.inl hx
        · exact Or.inl hmem
        · exact Or.inr hx
    · rw [if_pos hmem, ih]
      simp only [List.mem_append, List.mem_cons, List.not_mem_nil, or_false]
      constructor
      · rintro (⟨hx | hx⟩ | hx)
        · exact Or.inl hx
        · exact Or.inr (Or.inl hx)
        · exact Or.inr (Or.inr hx)
      · rintro (hx | hx | hx)
        · exact Or.inl (Or.inl hx)
        · exact Or.inl (Or.inr hx)
        · exact Or.inr hx

theorem mergePass2_nodup (l acc : List String) (h : acc.Nodup) :
    (mergePass2 l acc).Nodup := by
  induction l generalizing acc with
  | nil => simpa [mergePass2] using h
  | cons id rest ih =>
    simp only [mergePass2]
    by_cases hmem : id ∈ acc
    · rw [if_neg (not_not_intro hmem)]
      exact ih acc h
    · rw [if_pos hmem]
      exact ih (acc ++ [id])
        (by simp [List.nodup_append, h, List.disjoint_singleton, hmem])

theorem mergePass1_mem (comp l acc : List String) (x : String) :
    x ∈ mergePass1 comp l acc ↔ x ∈ acc ∨ (x ∈ l ∧ x ∈ comp) := by
  induction l generalizing acc with
  | nil => simp [mergePass1]
  | cons id rest ih =>
    simp only [mergePass1]
    by_cases hcond : id ∈ comp ∧ id ∉ acc
    · rw [if_pos hcond, ih]
      simp only [List.mem_append, List.mem_cons, List.not_mem_nil, or_false]
      constructor
      · rintro (⟨hx | rfl⟩ | ⟨hx, hc⟩)
        · exact Or.inl hx
        · exact Or.inr ⟨Or.inl rfl, hcond.1⟩
        · exact Or.inr ⟨Or.inr hx, hc⟩
      · rintro (hx | ⟨rfl | hx, hc⟩)
        · exact Or.inl (Or.inl hx)
        · exact Or.inl (Or.inr rfl)
        · exact Or.inr ⟨hx, hc⟩
    · rw [if_neg hcond, ih]
      simp only [List.mem_cons]
      rw [Classical.not_and_iff_or_not_not, not_not] at hcond
      constructor
      · rintro (hx | ⟨hx, hc⟩)
        · exact Or.inl hx
        · exact Or.inr ⟨Or.inr hx, hc⟩
      · rintro (hx | ⟨rfl | hx, hc⟩)
        · exact Or.inl hx
        · rcases hcond with hc' | hacc
          · exact absurd hc hc'
          · exact Or.inl hacc
        · exact Or.inr ⟨hx, hc⟩

theorem mergePass1_nodup (comp l acc : List String) (h : acc.Nodup) :
    (mergePass1 comp l acc).Nodup := by
  induction l generalizing acc with
  | nil => simpa [mergePass1] using h
  | cons id rest ih =>
    simp only [mergePass1]
    by_cases hcond : id ∈ comp ∧ id ∉ acc
    · rw [if_pos hcond]
      exact ih (acc ++ [id])
        (by simp [List.nodup_append, h, List.disjoint_singleton, hcond.2])
    · rw [if_neg hcond]
      exact ih acc h

theorem mergePass1_eq_append (comp l acc : List String) (hn : l.Nodup)
    (hsub : ∀ x ∈ l, x ∈ comp) (hdisj : ∀ x ∈ l, x ∉ acc) :
    mergePass1 comp l acc = acc ++ l := by
  induction l generalizing acc with
  | nil => simp [mergePass1]
  | cons id rest ih =>
    simp only [mergePass1]
    rw [if_pos ⟨hsub id (by simp), hdisj id (by simp)⟩]
    rw [ih (acc ++ [id]) (List.Nodup.of_cons hn)
      (fun x hx => hsub x (List.mem_cons_of_mem _ hx))
      (fun x hx => by
        simp only [List.mem_append, List.mem_singleton]
        push_neg
        refine ⟨hdisj x (List.mem_cons_of_mem _ hx), ?_⟩
        intro hxid
        exact (List.nodup_cons.mp hn).1 (hxid ▸ hx))]
    simp

theorem mergePass2_eq_self (l acc : List String) (h : ∀ x ∈ l, x ∈ acc) :
    mergePass2 l acc = acc := by
  induction l with
  | nil => simp [mergePass2]
  | cons id rest ih =>
    simp only [mergePass2]
    rw [if_neg (not_not_intro (h id (by simp)))]
    exact ih (fun x hx => h x (List.mem_cons_of_mem _ hx))

/-- The merged queue never holds duplicates. -/
theorem mergeQueueOrder_nodup (q c : List String) : (mergeQueueOrder q c).Nodup :=
  mergePass2_nodup _ _ (mergePass1_nodup _ _ _ List.nodup_nil)

/-- Membership in the merged queue is exactly membership in the computed
queue: stale entries are dropped, new ones appended. -/
theorem mem_mergeQueueOrder (q c : List String) (x : String) :
    x ∈ mergeQueueOrder q c ↔ x ∈ c := by
  unfold mergeQueueOrder
  rw [mergePass2_mem, mergePass1_mem]
  simp only [List.not_mem_nil, false_or]
  tauto

/-- Merging a duplicate-free queue whose members are exactly the computed
ones returns the queue unchanged. -/
theorem mergeQueueOrder_eq_self (q c : List String) (hn : q.Nodup)
    (hiff : ∀ x, x ∈ q ↔ x ∈ c) : mergeQueueOrder q c = q := by
  unfold mergeQueueOrder
  rw [mergePass1_eq_append c q [] hn (fun x hx => (hiff x).mp hx) (by simp)]
  rw [List.nil_append]
  exact mergePass2_eq_self _ _ (fun x hx => (hiff x).mpr hx)

/-! Lemmas about the reconciler. -/

/-- Unfolding lemma: reconciling a disabled focus state clears it. -/
theorem reconcile_disabled (tasks : List Task) (settings : UserSettings)
    (fm : FocusModeState) (today : Int) (h : fm.enabled = false) :
    reconcileFocusModeState tasks settings fm today =
      { enabled := false, activeTaskId := Option.none, queue := [] } := by
  simp [reconcileFocusModeState, createFocusModeState, FocusModeState.toInit, h]

/-- Unfolding lemma: reconciling an enabled focus state merges the queue and
revalidates the active id. -/
theorem reconcile_enabled (tasks : List Task) (settings : UserSettings)
    (fm : FocusModeState) (today : Int) (h : fm.enabled = true) :
    reconcileFocusModeState tasks settings fm today =
      { enabled := true
      , activeTaskId :=
          match fm.activeTaskId with
          | Option.some a =>
            if a ∈ mergeQueueOrder fm.queue (computeFocusQueue tasks settings today)
            then Option.some a
            else (mergeQueueOrder fm.queue (computeFocusQueue tasks settings today)).head?
          | Option.none =>
            (mergeQueueOrder fm.queue (computeFocusQueue tasks settings today)).head?
      , queue := mergeQueueOrder fm.queue (computeFocusQueue tasks settings today) } := by
  simp [reconcileFocusModeState, createFocusModeState, FocusModeState.toInit, h]

/-- Unfolding lemma: enabled reconciliation with a current active id. -/
theorem reconcile_enabled_some (tasks : List Task) (settings : UserSettings)
    (fm : FocusModeState) (today : Int) (a : String) (h : fm.enabled = true)
    (hact : fm.activeTaskId = Option.some a) :
    reconcileFocusModeState tasks settings fm today =
      { enabled := true
      , activeTaskId :=
          if a ∈ mergeQueueOrder fm.queue (computeFocusQueue tasks settings today)
          then Option.some a
          else (mergeQueueOrder fm.queue (computeFocusQueue tasks settings today)).head?
      , queue := mergeQueueOrder fm.queue (computeFocusQueue tasks settings today) } := by
  simp [reconcileFocusModeState, createFocusModeState, FocusModeState.toInit, h, hact]

/-- Unfolding lemma: enabled reconciliation with no current active id. -/
theorem reconcile_enabled_none (tasks : List Task) (settings : UserSettings)
    (fm : FocusModeState) (today : Int) (h : fm.enabled = true)
    (hact : fm.activeTaskId = Option.none) :
    reconcileFocusModeState tasks settings fm today =
      { enabled := true
      , activeTaskId :=
          (mergeQueueOrder fm.queue (computeFocusQueue tasks settings today)).head?
      , queue := mergeQueueOrder fm.queue (computeFocusQueue tasks settings today) } := by
  simp [reconcileFocusModeState, createFocusModeState, FocusModeState.toInit, h, hact]

/-- Invariant holds for an enabled state whose active id is a member whenever
present and null only for an empty queue. -/
theorem focusInvariant_mk (act : Option String) (m : List String)
    (hact : ∀ x, act = Option.some x → x ∈ m)
    (hnil : act = Option.none → m = []) :
    focusInvariant { enabled := true, activeTaskId := act, queue := m } = true := by
  cases act with
  | none => simp [focusInvariant, hnil rfl]
  | some x =>
    simp only [focusInvariant]
    simpa [List.elem_iff] using hact x rfl

/-- The reconciler always re-establishes the focus-mode invariant. -/
theorem focusInvariant_reconcile (tasks : List Task) (settings : UserSettings)
    (fm : FocusModeState) (today : Int) :
    focusInvariant (reconcileFocusModeState tasks settings fm today) = true := by
  cases h : fm.enabled with
  | false => rw [reconcile_disabled tasks settings fm today h]; rfl
  | true =>
    cases hact : fm.activeTaskId with
    | none =>
      rw [reconcile_enabled_none tasks settings fm today h hact]
      apply focusInvariant_mk
      · intro x hx
        exact List.mem_of_mem_head? hx
      · intro hx
        exact List.head?_eq_none_iff.mp hx
    | some a =>
      rw [reconcile_enabled_some tasks settings fm today a h hact]
      apply focusInvariant_mk
      · intro x hx
        by_cases hmem : a ∈ mergeQueueOrder fm.queue (computeFocusQueue tasks settings today)
        · rw [if_pos hmem] at hx
          cases hx
          exact hmem
        · rw [if_neg hmem] at hx
          exact List.mem_of_mem_head? hx
      · intro hx
        by_cases hmem : a ∈ mergeQueueOrder fm.queue (computeFocusQueue tasks settings today)
        · rw [if_pos hmem] at hx
          exact absurd hx (by simp)
        · rw [if_neg hmem] at hx
          exact List.head?_eq_none_iff.mp hx

/-- Reconciliation is idempotent: a second application to its own output (with
unchanged tasks, settings and reference day) changes nothing. -/
theorem reconcile_idem (tasks : List Task) (settings : UserSettings)
    (fm : FocusModeState) (today : Int) :
    reconcileFocusModeState tasks settings
        (reconcileFocusModeState tasks settings fm today) today =
      reconcileFocusModeState tasks settings fm today := by
  cases h : fm.enabled with
  | false =>
    rw [reconcile_disabled tasks settings fm today h]
    exact reconcile_disabled tasks settings _ today rfl
  | true =>
    have hmm : ∀ q : List String,
        mergeQueueOrder (mergeQueueOrder q (computeFocusQueue tasks settings today))
          (computeFocusQueue tasks settings today) =
        mergeQueueOrder q (computeFocusQueue tasks settings today) := by
      intro q
      exact mergeQueueOrder_eq_self _ _ (mergeQueueOrder_nodup _ _)
        (fun x => by simp only [mem_mergeQueueOrder])
    cases hact : fm.activeTaskId with
    | none =>
      rw [reconcile_enabled_none tasks settings fm today h hact]
      cases hd : (mergeQueueOrder fm.queue (computeFocusQueue tasks settings today)).head? with
      | none =>
        rw [reconcile_enabled_none tasks settings _ today rfl rfl]
        simp only [hmm, hd]
      | some y =>
        rw [reconcile_enabled_some tasks settings _ today y rfl rfl]
        simp only [hmm]
        rw [if_pos (List.mem_of_mem_head? hd)]
    | some a =>
      rw [reconcile_enabled_some tasks settings fm today a h hact]
      by_cases hmem : a ∈ mergeQueueOrder fm.queue (computeFocusQueue tasks settings today)
      · rw [if_pos hmem]
        rw [reconcile_enabled_some tasks settings _ today a rfl rfl]
        simp only [hmm]
        rw [if_pos hmem]
      · rw [if_neg hmem]
        cases hd : (mergeQueueOrder fm.queue (computeFocusQueue tasks settings today)).head? with
        | none =>
          rw [reconcile_enabled_none tasks settings _ today rfl rfl]
          simp only [hmm, hd]
        | some y =>
          rw [reconcile_enabled_some tasks settings _ today y rfl rfl]
          simp only [hmm]
          rw [if_pos (List.mem_of_mem_head? hd)]

/-- A focus state fixed by reconciliation has a duplicate-free queue whose
members are exactly the computed eligible ids. -/
theorem fixpoint_queue_props (tasks : List Task) (settings : UserSettings)
    (fm : FocusModeState) (today : Int) (h : fm.enabled = true)
    (hfix : reconcileFocusModeState tasks settings fm today = fm) :
    fm.queue.Nodup ∧
      (∀ x, x ∈ fm.queue ↔ x ∈ computeFocusQueue tasks settings today) := by
  have hq : mergeQueueOrder fm.queue (computeFocusQueue tasks settings today) = fm.queue := by
    cases hact : fm.activeTaskId with
    | none =>
      have hrec := reconcile_enabled_none tasks settings fm today h hact
      exact congrArg FocusModeState.queue (hrec.symm.trans hfix)
    | some a =>
      have hrec := reconcile_enabled_some tasks settings fm today a h hact
      exact congrArg FocusModeState.queue (hrec.symm.trans hfix)
  constructor
  · rw [← hq]
    exact mergeQueueOrder_nodup _ _
  · intro x
    rw [← hq]
    simp only [mem_mergeQueueOrder]

/-- In a reconciliation fixpoint the active id, when present, sits in the
queue. -/
theorem fixpoint_active_mem (tasks : List Task) (settings : UserSettings)
    (fm : FocusModeState) (today : Int) (h : fm.enabled = true)
    (hfix : reconcileFocusModeState tasks settings fm today = fm) (a : String)
    (hact : fm.activeTaskId = Option.some a) : a ∈ fm.queue := by
  have hinv : focusInvariant fm = true := by
    rw [← hfix]
    exact focusInvariant_reconcile tasks settings fm today
  simp only [focusInvariant, h, if_true, hact] at hinv
  exact List.mem_of_elem_eq_true hinv

/-! The computed focus queue is unaffected by task edits that keep the fields
it reads. -/

theorem filter_map_eq {α : Type} (g : α → α) (p : α → Bool) (l : List α)
    (h : ∀ t ∈ l, p (g t) = p t) : (l.map g).filter p = (l.filter p).map g := by
  induction l with
  | nil => simp
  | cons x xs ih =>
    simp only [List.map_cons, List.filter_cons]
    rw [h x (by simp)]
    cases hp : p x with
    | false => simpa using ih (fun t ht => h t (List.mem_cons_of_mem _ ht))
    | true =>
      simp only [if_true]
      rw [List.map_cons]
      rw [ih (fun t ht => h t (List.mem_cons_of_mem _ ht))]

theorem insertStable_map {α : Type} (g : α → α) (lt : α → α → Bool)
    (hcmp : ∀ a b, lt (g a) (g b) = lt a b) (x : α) (l : List α) :
    insertStable lt (g x) (l.map g) = (insertStable lt x l).map g := by
  induction l with
  | nil => simp [insertStable]
  | cons y ys ih =>
    simp only [List.map_cons, insertStable]
    rw [hcmp y x]
    cases h : lt y x with
    | true => simp only [if_true, List.map_cons, ih]
    | false => simp

theorem sortStable_map {α : Type} (g : α → α) (lt : α → α → Bool)
    (hcmp : ∀ a b, lt (g a) (g b) = lt a b) (l : List α) :
    sortStable lt (l.map g) = (sortStable lt l).map g := by
  induction l with
  | nil => simp [sortStable]
  | cons y ys ih =>
    simp only [List.map_cons, sortStable]
    rw [ih, insertStable_map g lt hcmp]

/-- Mapping a task transformation that preserves eligibility, the comparator
key and the id over the task list leaves the computed focus queue
unchanged. -/
theorem computeFocusQueue_map (g : Task → Task) (tasks : List Task)
    (settings : UserSettings) (today : Int)
    (hel : ∀ t ∈ tasks,
      focusEligible settings today (g t) = focusEligible settings today t)
    (hcmp : ∀ a b, focusCompare (g a) (g b) = focusCompare a b)
    (hid : ∀ t, (g t).id = t.id) :
    computeFocusQueue (tasks.map g) settings today =
      computeFocusQueue tasks settings today := by
  unfold computeFocusQueue
  rw [filter_map_eq g _ tasks hel]
  rw [sortStable_map g _ (fun a b => by rw [hcmp a b])]
  rw [List.map_map]
  exact List.map_congr_left (fun t _ => hid t)

/-! Lemmas about the first-match update used by `updateTask`. -/

theorem updateFirst_eq_none_iff {α : Type} (p : α → Bool) (f : α → α)
    (l : List α) : updateFirst p f l = Option.none ↔ ∀ x ∈ l, p x = false := by
  induction l with
  | nil => simp [updateFirst]
  | cons y ys ih =>
    simp only [updateFirst]
    cases hp : p y with
    | true => simp [hp]
    | false => simp [hp, Option.map_eq_none', ih]

theorem map_if_no_match {α : Type} (p : α → Bool) (f : α → α) (l : List α)
    (h : ∀ x ∈ l, p x = false) :
    (l.map fun x => if p x then f x else x) = l := by
  induction l with
  | nil => simp
  | cons y ys ih =>
    simp only [List.map_cons, h y (by simp), if_false, List.cons.injEq]
    exact ⟨rfl, ih (fun x hx => h x (List.mem_cons_of_mem _ hx))⟩

/-- When at most one element matches and a match exists, the first-match
update is the pointwise conditional map. -/
theorem updateFirst_eq_map {α : Type} (p : α → Bool) (f : α → α) (l : List α)
    (hcount : (l.filter p).length ≤ 1) (x0 : α) (hx0 : x0 ∈ l)
    (hp0 : p x0 = true) :
    updateFirst p f l = Option.some (l.map fun x => if p x then f x else x) := by
  induction l with
  | nil => cases hx0
  | cons y ys ih =>
    simp only [updateFirst, List.map_cons]
    by_cases hpy : p y = true
    · rw [if_pos hpy, if_pos hpy]
      have hfil : ys.filter p = [] := by
        rw [List.filter_cons, if_pos hpy] at hcount
        simp only [List.length_cons] at hcount
        exact List.length_eq_zero.mp (by omega)
      rw [map_if_no_match p f ys
        (fun x hx => by
          by_contra hne
          have hxf : x ∈ ys.filter p := List.mem_filter.mpr
            ⟨hx, by simpa using Bool.not_eq_false _ |>.mp hne⟩
          simp [hfil] at hxf)]
    · rw [if_neg hpy, if_neg hpy]
      rcases List.mem_cons.mp hx0 with rfl | hx0'
      · exact absurd hp0 hpy
      · rw [List.filter_cons, if_neg hpy] at hcount
        rw [ih hcount hx0']
        rfl

/-- Duplicate-free ids make id-targeted filters match at most once. -/
theorem filter_id_count (l : List Task) (a : String)
    (h : (l.map Task.id).Nodup) :
    (l.filter (fun t => t.id == a)).length ≤ 1 := by
  induction l with
  | nil => simp
  | cons t ts ih =>
    simp only [List.map_cons, List.nodup_cons] at h
    simp only [List.filter_cons]
    cases hp : (t.id == a) with
    | false => simpa using ih h.2
    | true =>
      have ha : t.id = a := by simpa using hp
      have hnil : ts.filter (fun t' => t'.id == a) = [] := by
        apply List.filter_eq_nil_iff.mpr
        intro x hx hbx
        have hxa : x.id = a := by simpa using hbx
        exact h.1 (List.mem_map.mpr ⟨x, hx, (hxa.trans ha.symm).symm ▸ rfl⟩)
      simp [hnil]

/-- With duplicate-free ids, every task carrying the searched id is the one
`find?` returned. -/
theorem unique_by_id (l : List Task) (h : (l.map Task.id).Nodup) (a : String)
    (ta : Task) (hfind : l.find? (fun t => t.id == a) = Option.some ta) :
    ∀ t ∈ l, t.id = a → t = ta := by
  induction l with
  | nil => intro t ht; cases ht
  | cons y ys ih =>
    simp only [List.map_cons, List.nodup_cons] at h
    intro t ht hta
    rcases List.mem_cons.mp ht with rfl | ht'
    · simp only [List.find?_cons, (show (t.id == a) = true by simpa using hta)] at hfind
      exact Option.some_injective _ hfind
    · have hya : y.id ≠ a := by
        intro hya
        exact h.1 (List.mem_map.mpr ⟨t, ht', hta.trans hya.symm⟩)
      simp only [List.find?_cons, (show (y.id == a) = false by simpa using hya)] at hfind
      exact ih h.2 hfind t ht' hta

/-! Additional storage lemma. -/

theorem lookupEntry_setEntry_same (d : List (String × String)) (k v : String) :
    lookupEntry (setEntry d k v) k = Option.some v := by
  induction d with
  | nil => simp [setEntry, lookupEntry]
  | cons e rest ih =>
    obtain ⟨k', v'⟩ := e
    simp only [setEntry]
    by_cases hk : k' = k
    · rw [if_pos hk]
      simp [lookupEntry]
    · rw [if_neg hk]
      simp only [lookupEntry]
      rw [if_neg hk]
      exact ih

/-! Claim theorems. -/

/-- C1: for every fixed input triple of tasks, settings and reference day,
the scheduler store's `applyAutoPlan` produces the same planned task list and
the same capacity-usage ledger, independent of the prior call history (the
held `capacityUsage` and `lastPlannedAt`) and of the reference instant's
time-of-day component. -/
theorem claim1_autoPlan_deterministic :
    ∀ (s1 s2 : TaskStoreState) (r1 r2 w1 w2 : Instant),
      s1.tasks = s2.tasks → s1.settings = s2.settings → r1.day = r2.day →
      (applyAutoPlan s1 (Option.some r1) w1).tasks =
          (applyAutoPlan s2 (Option.some r2) w2).tasks ∧
        (applyAutoPlan s1 (Option.some r1) w1).capacityUsage =
          (applyAutoPlan s2 (Option.some r2) w2).capacityUsage := by
  intro s1 s2 r1 r2 w1 w2 ht hs hd
  simp only [applyAutoPlan, autoPlan, Option.getD_some]
  rw [ht, hs, hd]
  exact ⟨rfl, rfl⟩

/-- Concrete scheduler task used by the determinism witness. -/
def c1Task : PTask :=
  { id := "w1", title := "W", priority := Priority.medium
  , status := Status.backlog, createdAt := 1, dueDate := Option.some 102
  , durationMinutes := 120, plannedDate := Option.none, manualPinned := false
  , orderIndex := Option.none, atRisk := false, parts := Option.none }

/-- Concrete scheduler settings used by the determinism witness. -/
def c1Settings : AutoPlanSettings :=
  { dailyCapacityMinutes := 240, minChunkMinutes := 15, planningHorizonDays := 1
  , capacityOverrides := [], weekdayCapacities := [] }

/-- Store with a non-trivial prior history. -/
def c1Store1 : TaskStoreState :=
  { tasks := [c1Task], settings := c1Settings
  , capacityUsage := [(5, mkUsage 3 1)]
  , lastPlannedAt := Option.some { day := 7, msOfDay := 3 } }

/-- Store with no prior history. -/
def c1Store2 : TaskStoreState :=
  { tasks := [c1Task], settings := c1Settings, capacityUsage := []
  , lastPlannedAt := Option.none }

/-- Witness for C1: two stores differing only in call history, and two
reference instants differing only in time-of-day, replan identically. -/
theorem claim1_witness :
    (applyAutoPlan c1Store1 (Option.some { day := 100, msOfDay := 11 })
        { day := 0, msOfDay := 0 }).tasks =
      (applyAutoPlan c1Store2 (Option.some { day := 100, msOfDay := 999 })
        { day := 55, msOfDay := 4 }).tasks ∧
    (applyAutoPlan c1Store1 (Option.some { day := 100, msOfDay := 11 })
        { day := 0, msOfDay := 0 }).capacityUsage =
      (applyAutoPlan c1Store2 (Option.some { day := 100, msOfDay := 999 })
        { day := 55, msOfDay := 4 }).capacityUsage :=
  claim1_autoPlan_deterministic c1Store1 c1Store2 _ _ _ _ rfl rfl rfl

/-- C7: focus-queue reconciliation is idempotent for every state and fixed
reference day, and merging a duplicate-free queue against itself returns the
identical order. -/
theorem claim7_reconcile_idempotent :
    (∀ (tasks : List Task) (settings : UserSettings) (fm : FocusModeState)
        (today : Int),
      reconcileFocusModeState tasks settings
          (reconcileFocusModeState tasks settings fm today) today =
        reconcileFocusModeState tasks settings fm today) ∧
    (∀ q : List String, q.Nodup → mergeQueueOrder q q = q) :=
  ⟨reconcile_idem, fun q hq => mergeQueueOrder_eq_self q q hq (fun _ => Iff.rfl)⟩

/-- Witness for C7 at a concrete duplicate-free queue. -/
theorem claim7_witness : mergeQueueOrder ["a", "b"] ["a", "b"] = ["a", "b"] :=
  claim7_reconcile_idempotent.2 ["a", "b"] (by decide)

/-- C2: every state the store commits — the state of any `setState` call that
committed, and the initially hydrated state — satisfies the focus-mode
invariant: disabled focus carries a null active id and empty queue, and an
enabled state's active id is null only with an empty queue and otherwise a
queue member. -/
theorem claim2_committed_focus_invariant :
    (∀ (prev : MomentumState) (patchOpt : Option StatePatch)
        (options : SetStateOptions) (freshFM : Nat) (today : Int)
        (callbackPresent : Bool),
      (setState prev patchOpt options freshFM today callbackPresent).committed = true →
      focusInvariant
        (setState prev patchOpt options freshFM today
          callbackPresent).state.focusMode.val = true) ∧
    (∀ (persisted : Option PersistedMomentumState) (today : Int),
      focusInvariant (hydrateState persisted today).focusMode.val = true) := by
  constructor
  · intro prev patchOpt options freshFM today cb hc
    match patchOpt with
    | Option.none => exact absurd hc (by simp [setState])
    | Option.some patch =>
      simp only [setState] at hc ⊢
      split at hc
      · rename_i hcond
        rw [if_pos hcond]
        exact focusInvariant_reconcile _ _ _ _
      · exact absurd hc (by simp)
  · intro persisted today
    match persisted with
    | Option.none => rfl
    | Option.some p =>
      simp only [hydrateState]
      exact focusInvariant_reconcile _ _ _ _

/-- Patch used by commit witnesses: turn auto-plan off. -/
def cwPatch : StatePatch :=
  { emptyPatch with autoPlanEnabled := Option.some false }

/-- Witness for C2: a concrete committing call and a concrete hydration both
satisfy the invariant. -/
theorem claim2_witness :
    (setState createDefaultState (Option.some cwPatch) defaultOptions 9 100
        true).committed = true ∧
    focusInvariant
      (setState createDefaultState (Option.some cwPatch) defaultOptions 9 100
        true).state.focusMode.val = true :=
  ⟨by decide
  , claim2_committed_focus_invariant.1 createDefaultState (Option.some cwPatch)
      defaultOptions 9 100 true (by decide)⟩

/-- C9: when the persisted snapshot is absent, or present but unparsable,
hydration returns the default state — empty task list, default settings,
focus mode disabled with null active id and empty queue, auto-plan
enabled. -/
theorem claim9_hydration_fallback :
    ∀ (b : StorageBackend) (parse : String → Option PersistedMomentumState)
      (today : Int),
      (getItemRaw b STORAGE_KEY = Option.none →
        hydrateFromStorage b parse today = createDefaultState) ∧
      (∀ raw, getItemRaw b STORAGE_KEY = Option.some raw →
        parse raw = Option.none →
        hydrateFromStorage b parse today = createDefaultState) ∧
      (createDefaultState.tasks.val = [] ∧
        createDefaultState.settings.val = DEFAULT_USER_SETTINGS ∧
        createDefaultState.focusMode.val =
          { enabled := false, activeTaskId := Option.none, queue := [] } ∧
        createDefaultState.autoPlanEnabled = true) := by
  intro b parse today
  refine ⟨?_, ?_, rfl, rfl, rfl, rfl⟩
  · intro h
    unfold hydrateFromStorage loadJSON
    rw [h]
    rfl
  · intro raw hraw hparse
    unfold hydrateFromStorage loadJSON
    rw [hraw]
    show hydrateState
      (if raw = "" then Option.none
        else (Option.map Option.some (parse raw)).getD Option.none) today =
      createDefaultState
    by_cases hr : raw = ""
    · rw [if_pos hr]
      rfl
    · rw [if_neg hr, hparse]
      rfl

/-- Witness for C9: an unavailable backend and a garbage snapshot both
hydrate to the default state. -/
theorem claim9_witness :
    hydrateFromStorage { available := false, failing := false, data := [] }
        (fun _ => Option.none) 100 = createDefaultState ∧
    hydrateFromStorage
        { available := true, failing := false, data := [(STORAGE_KEY, "garbage")] }
        (fun _ => Option.none) 100 = createDefaultState :=
  ⟨(claim9_hydration_fallback _ _ 100).1 rfl
  , (claim9_hydration_fallback _ _ 100).2.1 "garbage" (by decide) rfl⟩

/-- C10: with storage available and healthy, reading a key back after writing
a value returns the JSON round-trip of that value; with storage unavailable,
the write is a no-op and the read returns the fallback unchanged. -/
theorem claim10_storage_roundtrip :
    ∀ {α : Type} (stringify : α → Option String) (parse : String → Option α)
      (b : StorageBackend) (k : String) (v : α) (fallback : α),
      (b.available = true → b.failing = false →
        ∀ s u, stringify v = Option.some s → s ≠ "" → parse s = Option.some u →
          loadJSON parse (saveJSON stringify b k v) k fallback = u) ∧
      (b.available = false →
        saveJSON stringify b k v = b ∧ loadJSON parse b k fallback = fallback) := by
  intro α stringify parse b k v fallback
  constructor
  · intro hav hfail s u hs hne hp
    have hsave : saveJSON stringify b k v = { b with data := setEntry b.data k s } := by
      simp [saveJSON, saveJSONBody, setItemRaw, hs, hav, hfail]
    rw [hsave]
    simp [loadJSON, getItemRaw, hav, lookupEntry_setEntry_same, hne, hp]
  · intro hav
    constructor
    · unfold saveJSON saveJSONBody setItemRaw
      cases hsv : stringify v with
      | none => rfl
      | some s => simp [hav]
    · unfold loadJSON getItemRaw
      simp [hav]

/-- Witness for C10 with a concrete serializer pair on naturals. -/
theorem claim10_witness :
    loadJSON (fun s => if s = "five" then Option.some (5 : Nat) else Option.none)
        (saveJSON (fun _ : Nat => Option.some "five")
          { available := true, failing := false, data := [] } "k" 5) "k" 0 = 5 ∧
    (saveJSON (fun _ : Nat => Option.some "five")
        { available := false, failing := false, data := [] } "k" 5 =
      { available := false, failing := false, data := [] } ∧
    loadJSON (fun s => if s = "five" then Option.some (5 : Nat) else Option.none)
        { available := false, failing := false, data := [] } "k" 0 = 0) :=
  ⟨(claim10_storage_roundtrip _ _ _ "k" 5 0).1 rfl rfl "five" 5 rfl
      (by decide) (by decide)
  , (claim10_storage_roundtrip _ _ _ "k" 5 0).2 rfl⟩

/-- C8: a failing local-cache write is swallowed at the cache boundary — the
`try`/`catch` in `saveJSON` turns every error of its body into a no-op on the
backend — and the commit-and-notify outcome of `setState` is identical for
every backend, so only durability is lost. -/
theorem claim8_persistence_failure_swallowed :
    (∀ (stringify : MomentumState → Option String) (b : StorageBackend)
        (prev : MomentumState) (patchOpt : Option StatePatch)
        (options : SetStateOptions) (freshFM : Nat) (today : Int)
        (callbackPresent : Bool),
      (setStateWithStorage stringify b prev patchOpt options freshFM today
          callbackPresent).1 =
        setState prev patchOpt options freshFM today callbackPresent) ∧
    (∀ {α : Type} (stringify : α → Option String) (b : StorageBackend)
        (k : String) (v : α),
      saveJSONBody stringify b k v = Except.error () →
      saveJSON stringify b k v = b) := by
  constructor
  · intro stringify b prev patchOpt options freshFM today cb
    simp only [setStateWithStorage]
    split <;> rfl
  · intro α stringify b k v h
    unfold saveJSON
    rw [h]

/-- A `setState` call whose reconciled focus-mode object carries a fresh
reference always commits (the reconciler allocates on every call, so the
`focusModeChanged` reference check is always true); this pins down the whole
result record. -/
theorem setState_of_fresh (prev : MomentumState) (patch : StatePatch)
    (options : SetStateOptions) (freshFM : Nat) (today : Int) (cb : Bool)
    (hfm : freshFM ≠ prev.focusMode.ref) :
    setState prev (Option.some patch) options freshFM today cb =
      { state :=
          { applyPatch prev patch with
            focusMode :=
              { ref := freshFM
              , val := reconcileFocusModeState (applyPatch prev patch).tasks.val
                  (applyPatch prev patch).settings.val
                  (applyPatch prev patch).focusMode.val today } }
      , committed := true
      , persisted := options.persist
      , notified := true
      , autoPlanRan := maybeRunAutoPlan prev
          { applyPatch prev patch with
            focusMode :=
              { ref := freshFM
              , val := reconcileFocusModeState (applyPatch prev patch).tasks.val
                  (applyPatch prev patch).settings.val
                  (applyPatch prev patch).focusMode.val today } }
          patch options cb } := by
  have hne : prev.focusMode.ref ≠ freshFM := Ne.symm hfm
  simp only [setState]
  rw [if_pos (by simp [hne])]

/-- Membership in a conditional map comes from a matched, rewritten element or
an unmatched, untouched one. -/
theorem mem_conditional_map {α : Type} (p : α → Bool) (f : α → α) (l : List α)
    (t : α) (ht : t ∈ l.map fun x => if p x then f x else x) :
    (∃ x ∈ l, p x = true ∧ t = f x) ∨ (∃ x ∈ l, p x = false ∧ t = x) := by
  rcases List.mem_map.mp ht with ⟨x, hx, rfl⟩
  by_cases hp : p x = true
  · exact Or.inl ⟨x, hx, hp, by rw [if_pos hp]⟩
  · exact Or.inr ⟨x, hx, Bool.not_eq_true _ |>.mp hp, by rw [if_neg hp]⟩

/-- A defined first-match update yields an element satisfying the predicate. -/
theorem updateFirst_isSome_exists {α : Type} (p : α → Bool) (f : α → α)
    (l l' : List α) (h : updateFirst p f l = Option.some l') :
    ∃ x ∈ l, p x = true := by
  by_contra hno
  push_neg at hno
  rw [updateFirst_eq_none_iff p f l |>.mpr
    (fun x hx => Bool.not_eq_true _ |>.mp (hno x hx))] at h
  cases h

/-- Boolean-to-propositional reading of the auto-plan trigger decision with a
registered callback. -/
theorem maybeRunAutoPlan_iff (prev next : MomentumState) (patch : StatePatch)
    (options : SetStateOptions) :
    (maybeRunAutoPlan prev next patch options true = true) ↔
      (options.skipAutoPlan = false ∧ next.autoPlanEnabled = true ∧
        ((patch.tasks.isSome = true ∧ prev.tasks.ref ≠ next.tasks.ref) ∨
         (patch.settings.isSome = true ∧ prev.settings.ref ≠ next.settings.ref))) := by
  unfold maybeRunAutoPlan
  cases hs : options.skipAutoPlan <;> cases he : next.autoPlanEnabled <;>
    simp [hs, he, decide_eq_true_eq, Bool.or_eq_true, Bool.and_eq_true]

/-- A patched reference-typed field differs from the previous one exactly when
the patch owns the key with a reference-unequal value. -/
theorem getD_ref_changed_iff {α : Type} (cur : Ref α) (o : Option (Ref α)) :
    (o.isSome = true ∧ cur.ref ≠ (o.getD cur).ref) ↔
      (∃ t, o = Option.some t ∧ t.ref ≠ cur.ref) := by
  cases o with
  | none => simp
  | some t => simp [ne_comm]

/-- C3: conditioned on a committed `setState` with a registered scheduler
callback, the callback fires exactly when the patch owned the `tasks` or
`settings` key with a reference-unequal value, auto-plan is enabled in the
committed state, and the call did not pass `skipAutoPlan`; in every other
case — focus-mode patches, session patches, suppressed calls, auto-plan
disabled — it does not fire. -/
theorem claim3_autoplan_trigger_iff :
    ∀ (prev : MomentumState) (patch : StatePatch) (options : SetStateOptions)
      (freshFM : Nat) (today : Int),
      (setState prev (Option.some patch) options freshFM today true).committed = true →
      ((setState prev (Option.some patch) options freshFM today true).autoPlanRan = true ↔
        (options.skipAutoPlan = false ∧
          (setState prev (Option.some patch) options freshFM today
            true).state.autoPlanEnabled = true ∧
          ((∃ t, patch.tasks = Option.some t ∧ t.ref ≠ prev.tasks.ref) ∨
           (∃ s, patch.settings = Option.some s ∧ s.ref ≠ prev.settings.ref)))) := by
  intro prev patch options freshFM today hc
  simp only [setState, applyPatch] at hc ⊢
  split at hc
  · rename_i hcond
    rw [if_pos hcond]
    rw [maybeRunAutoPlan_iff]
    refine and_congr Iff.rfl (and_congr Iff.rfl (or_congr ?_ ?_))
    · exact getD_ref_changed_iff prev.tasks patch.tasks
    · exact getD_ref_changed_iff prev.settings patch.settings
  · exact absurd hc (by simp)

/-- Patch carrying a reference-unequal tasks value (the witness's commit). -/
def c3Patch : StatePatch :=
  { emptyPatch with tasks := Option.some { ref := 7, val := [] } }

/-- Witness for C3: a concrete committed tasks-touching call does invoke the
scheduler callback. -/
theorem claim3_witness :
    (setState createDefaultState (Option.some c3Patch) defaultOptions 9 100
        true).autoPlanRan = true :=
  (claim3_autoplan_trigger_iff createDefaultState c3Patch defaultOptions 9 100
      (by decide)).mpr
    ⟨rfl, by decide, Or.inl ⟨{ ref := 7, val := [] }, rfl, by decide⟩⟩

/-- Witness for C8: a quota-style failing backend leaves the store unchanged
while the commit result matches the storage-free call. -/
theorem claim8_witness :
    saveJSON (fun _ : Nat => Option.some "snap")
        { available := true, failing := true, data := [] } "k" 0 =
      { available := true, failing := true, data := [] } ∧
    (setStateWithStorage (fun _ => Option.some "snap")
        { available := true, failing := true, data := [] } createDefaultState
        (Option.some cwPatch) defaultOptions 9 100 true).1 =
      setState createDefaultState (Option.some cwPatch) defaultOptions 9 100 true :=
  ⟨claim8_persistence_failure_swallowed.2 _ _ "k" 0 rfl
  , claim8_persistence_failure_swallowed.1 _ _ _ _ _ 9 100 true⟩

/-- Concrete backlog task used by the missing-id scenarios. -/
def c4Task : Task :=
  { id := "a", title := "A", priority := Priority.medium
  , status := Status.backlog, createdAt := 1, updatedAt := Option.none
  , plannedDate := Option.none, manualPinned := false, orderIndex := Option.none
  , atRisk := false, completedAt := Option.none }

/-- Concrete store state holding one task with id `a`. -/
def c4State : MomentumState :=
  { tasks := { ref := 0, val := [c4Task] }
  , settings := { ref := 1, val := DEFAULT_USER_SETTINGS }
  , focusMode :=
      { ref := 2
      , val := { enabled := false, activeTaskId := Option.none, queue := [] } }
  , autoPlanEnabled := true
  , session := { ref := 3, val := createDefaultSession } }

/-- Counterexample to C4: `removeTask` targeting the absent id `zzz` is not a
no-op — the call commits a referentially new (though structurally identical)
task array, persists, notifies subscribers and invokes the scheduler
callback. -/
theorem claim4_counterexample :
    (removeTaskOp c4State "zzz" 10 11 100 true).committed = true ∧
    (removeTaskOp c4State "zzz" 10 11 100 true).persisted = true ∧
    (removeTaskOp c4State "zzz" 10 11 100 true).notified = true ∧
    (removeTaskOp c4State "zzz" 10 11 100 true).autoPlanRan = true ∧
    (removeTaskOp c4State "zzz" 10 11 100 true).state.tasks.val = c4State.tasks.val := by
  decide

/-- C4 (amended): a missing-id `updateTask` is a full no-op in the momentum
store, and a missing-id `removeTask` is a full no-op in the scheduler-driven
store; but the momentum store's `removeTask` on a missing id still commits a
structurally unchanged task list, persists, notifies, and (with auto-plan
enabled and a callback registered) invokes the scheduler.  No operation
throws: each is a total function. -/
theorem claim4_missing_id_mutations :
    (∀ (prev : MomentumState) (taskId : String) (p : TaskPatch)
        (options : SetStateOptions) (freshTasks freshFM : Nat) (today now : Int)
        (callbackPresent : Bool),
      (∀ t ∈ prev.tasks.val, (t.id == taskId) = false) →
      updateTaskOp prev taskId p options freshTasks freshFM today now callbackPresent =
        { state := prev, committed := false, persisted := false
        , notified := false, autoPlanRan := false }) ∧
    (∀ (s : TaskStoreState) (id : String) (todayOpt : Option Instant)
        (wallClock : Instant),
      (∀ t ∈ s.tasks, (t.id == id) = false) →
      part6RemoveTask s id todayOpt wallClock = Option.none) ∧
    (∀ (prev : MomentumState) (taskId : String) (freshTasks freshFM : Nat)
        (today : Int),
      (∀ t ∈ prev.tasks.val, (t.id == taskId) = false) →
      freshFM ≠ prev.focusMode.ref →
      freshTasks ≠ prev.tasks.ref →
      prev.autoPlanEnabled = true →
      (removeTaskOp prev taskId freshTasks freshFM today true).committed = true ∧
      (removeTaskOp prev taskId freshTasks freshFM today true).persisted = true ∧
      (removeTaskOp prev taskId freshTasks freshFM today true).notified = true ∧
      (removeTaskOp prev taskId freshTasks freshFM today true).autoPlanRan = true ∧
      (removeTaskOp prev taskId freshTasks freshFM today true).state.tasks.val =
        prev.tasks.val) := by
  refine ⟨?_, ?_, ?_⟩
  · intro prev taskId p options fT fFM today now cb h
    unfold updateTaskOp updateTaskUpdater
    rw [updateFirst_eq_none_iff _ _ _ |>.mpr h]
    rfl
  · intro s id todayOpt wallClock h
    simp only [part6RemoveTask]
    rw [List.filter_eq_self.mpr (fun t ht => by simp [h t ht])]
    rw [if_pos rfl]
  · intro prev taskId fT fFM today h hfm hft hauto
    have hfilter : prev.tasks.val.filter (fun t => !(t.id == taskId)) = prev.tasks.val :=
      List.filter_eq_self.mpr (fun t ht => by simp [h t ht])
    unfold removeTaskOp
    rw [setState_of_fresh prev _ defaultOptions fFM today true hfm]
    refine ⟨rfl, rfl, rfl, ?_, hfilter⟩
    rw [maybeRunAutoPlan_iff]
    exact ⟨rfl, hauto, Or.inl ⟨rfl, Ne.symm hft⟩⟩

/-- Empty scheduler-store state for the part_006 half of the C4 witness. -/
def c4PStore : TaskStoreState :=
  { tasks := []
  , settings :=
      { dailyCapacityMinutes := 240, minChunkMinutes := 15
      , planningHorizonDays := 1, capacityOverrides := [], weekdayCapacities := [] }
  , capacityUsage := [], lastPlannedAt := Option.none }

/-- Witness for the amended C4 at concrete inputs. -/
theorem claim4_witness :
    updateTaskOp c4State "zzz" focusDemotePatch defaultOptions 10 11 100 50 true =
      { state := c4State, committed := false, persisted := false
      , notified := false, autoPlanRan := false } ∧
    part6RemoveTask c4PStore "zzz" Option.none { day := 0, msOfDay := 0 } = Option.none ∧
    (removeTaskOp c4State "zzz" 10 11 100 true).committed = true :=
  ⟨claim4_missing_id_mutations.1 c4State "zzz" focusDemotePatch defaultOptions
      10 11 100 50 true (by decide)
  , claim4_missing_id_mutations.2.1 c4PStore "zzz" Option.none
      { day := 0, msOfDay := 0 } (by intro t ht; cases ht)
  , (claim4_missing_id_mutations.2.2 c4State "zzz" 10 11 100 (by decide)
      (by decide) (by decide) rfl).1⟩

/-- Concrete backlog task with no completion stamp, for the C5 scenarios. -/
def c5Task : Task :=
  { id := "a", title := "A", priority := Priority.medium
  , status := Status.backlog, createdAt := 1, updatedAt := Option.none
  , plannedDate := Option.none, manualPinned := false, orderIndex := Option.none
  , atRisk := false, completedAt := Option.none }

/-- Concrete store state around `c5Task`. -/
def c5State : MomentumState :=
  { tasks := { ref := 0, val := [c5Task] }
  , settings := { ref := 1, val := DEFAULT_USER_SETTINGS }
  , focusMode :=
      { ref := 2
      , val := { enabled := false, activeTaskId := Option.none, queue := [] } }
  , autoPlanEnabled := true
  , session := { ref := 3, val := createDefaultSession } }

/-- Counterexample to C5: the store operation `updateTaskStatus` changes a
task's status to done yet leaves `completedAt` null — the completion stamp is
not maintained by every status-changing mutation. -/
theorem claim5_counterexample :
    ((updateTaskStatusOp c5State "a" Status.done 10 11 100 50 true).state.tasks.val.find?
        (fun t => t.id == "a")).map (fun t => (t.status, t.completedAt)) =
      Option.some (Status.done, Option.none) := by
  decide

/-- C5 (amended): the completion stamp is maintained by the callers that
change status — the board's status-change handler patch and the
focus-session complete operation set `completedAt` exactly when the new
status is done — while the bare store operations `updateTaskStatus` (and
`updateTask` with a patch that omits `completedAt`) leave every task's
`completedAt` untouched. -/
theorem claim5_completedAt_discipline :
    (∀ (prev : MomentumState) (taskId : String) (status : Status)
        (options : SetStateOptions) (freshTasks freshFM : Nat) (today now : Int)
        (callbackPresent : Bool),
      (prev.tasks.val.map Task.id).Nodup →
      freshFM ≠ prev.focusMode.ref →
      ∀ t ∈ (updateTaskOp prev taskId (handleStatusChangePatch status now)
          options freshTasks freshFM today now callbackPresent).state.tasks.val,
        t.id = taskId →
        (status = Status.done → t.completedAt = Option.some now ∧ t.status = Status.done) ∧
        (status ≠ Status.done → t.completedAt = Option.none ∧ t.status = status)) ∧
    (∀ (prev : MomentumState) (freshTasks freshFM : Nat) (today now : Int)
        (callbackPresent : Bool) (a : String) (ta : Task),
      (prev.tasks.val.map Task.id).Nodup →
      freshFM ≠ prev.focusMode.ref →
      prev.focusMode.val.enabled = true →
      prev.focusMode.val.activeTaskId = Option.some a →
      prev.tasks.val.find? (fun t => t.id == a) = Option.some ta →
      ta.status ≠ Status.done →
      ∀ t ∈ (completeFocusTask prev freshTasks freshFM today now
          callbackPresent).state.tasks.val,
        t.id = a → t.completedAt = Option.some now ∧ t.status = Status.done) ∧
    (∀ (prev : MomentumState) (taskId : String) (status : Status)
        (freshTasks freshFM : Nat) (today now : Int) (callbackPresent : Bool),
      (updateTaskStatusOp prev taskId status freshTasks freshFM today now
          callbackPresent).state.tasks.val.map (fun t => (t.id, t.completedAt)) =
        prev.tasks.val.map (fun t => (t.id, t.completedAt))) := by
  refine ⟨?_, ?_, ?_⟩
  · intro prev taskId status options fT fFM today now cb hids hfm t htmem hid
    revert htmem
    unfold updateTaskOp updateTaskUpdater
    cases hu : updateFirst (fun t => t.id == taskId)
        (fun t => withTimestamps
          { applyTaskPatch t (handleStatusChangePatch status now) with id := taskId }
          false now) prev.tasks.val with
    | none =>
      intro htmem
      simp only [setState] at htmem
      exact absurd (by simpa using hid)
        (by simpa using updateFirst_eq_none_iff _ _ _ |>.mp hu t htmem)
    | some nextTasks =>
      obtain ⟨x0, hx0, hp0⟩ := updateFirst_isSome_exists _ _ _ _ hu
      rw [updateFirst_eq_map _ _ _ (filter_id_count _ _ hids) x0 hx0 hp0] at hu
      cases hu
      rw [setState_of_fresh prev _ options fFM today cb hfm]
      intro htmem
      rcases mem_conditional_map _ _ _ _ htmem with ⟨x, _, hpx, rfl⟩ | ⟨x, _, hpx, rfl⟩
      · constructor
        · intro hdone
          simp [withTimestamps, applyTaskPatch, handleStatusChangePatch, hdone]
        · intro hnd
          simp [withTimestamps, applyTaskPatch, handleStatusChangePatch, hnd]
      · exact absurd (by simpa using hid) (by simpa using hpx)
  · intro prev fT fFM today now cb a ta hids hfm hen hact hfind hnd t htmem hid
    revert htmem
    have hstep : completeFocusTask prev fT fFM today now cb =
        updateTaskOp prev a (completeFocusPatch now) defaultOptions fT fFM today
          now cb := by
      simp [completeFocusTask, hen, hact, hfind, hnd]
    rw [hstep]
    unfold updateTaskOp updateTaskUpdater
    cases hu : updateFirst (fun t => t.id == a)
        (fun t => withTimestamps
          { applyTaskPatch t (completeFocusPatch now) with id := a }
          false now) prev.tasks.val with
    | none =>
      intro htmem
      simp only [setState] at htmem
      exact absurd (by simpa using hid)
        (by simpa using updateFirst_eq_none_iff _ _ _ |>.mp hu t htmem)
    | some nextTasks =>
      obtain ⟨x0, hx0, hp0⟩ := updateFirst_isSome_exists _ _ _ _ hu
      rw [updateFirst_eq_map _ _ _ (filter_id_count _ _ hids) x0 hx0 hp0] at hu
      cases hu
      rw [setState_of_fresh prev _ defaultOptions fFM today cb hfm]
      intro htmem
      rcases mem_conditional_map _ _ _ _ htmem with ⟨x, _, hpx, rfl⟩ | ⟨x, _, hpx, rfl⟩
      · simp [withTimestamps, applyTaskPatch, completeFocusPatch]
      · exact absurd (by simpa using hid) (by simpa using hpx)
  · intro prev taskId status fT fFM today now cb
    simp only [updateTaskStatusOp, setState]
    split
    · simp only [applyPatch, Option.getD_some, List.map_map]
      apply List.map_congr_left
      intro t _
      simp only [Function.comp_apply]
      by_cases hid : (t.id == taskId) = true
      · rw [if_pos hid]
        rfl
      · rw [if_neg hid]
    · rfl

/-! Support for the skip-rotation analysis. -/

/-- Moving one occurrence to the back preserves freedom from duplicates. -/
theorem rot_nodup (q : List String) (a : String) (h : q.Nodup) :
    (q.erase a ++ [a]).Nodup := by
  rw [List.nodup_append]
  refine ⟨h.erase a, List.nodup_singleton a, ?_⟩
  intro x hx hxa
  rw [List.mem_singleton.mp hxa] at hx
  exact h.not_mem_erase hx

/-- Moving one occurrence of a member to the back preserves the member set. -/
theorem rot_mem (q : List String) (a x : String) (hq : q.Nodup) (ha : a ∈ q) :
    x ∈ q.erase a ++ [a] ↔ x ∈ q := by
  rw [List.mem_append, List.mem_singleton, hq.mem_erase_iff]
  constructor
  · rintro (⟨_, hx⟩ | rfl)
    · exact hx
    · exact ha
  · intro hx
    by_cases hxa : x = a
    · exact Or.inr hxa
    · exact Or.inl ⟨hxa, hx⟩

/-- The head fallback of the rotated queue is a member of it. -/
theorem rot_headD_mem (q : List String) (a : String) :
    (q.erase a ++ [a]).headD a ∈ q.erase a ++ [a] := by
  cases h : q.erase a with
  | nil => simp [h]
  | cons y ys => simp [h]

/-- The task rewrite `skipFocusTask`'s demotion performs on the list: merge
the demote patch into the task bearing the active id, restamp `updatedAt`,
leave everything else alone. -/
def demoteAt (a : String) (now : Int) (t : Task) : Task :=
  if (t.id == a) = true then
    withTimestamps { applyTaskPatch t focusDemotePatch with id := a } false now
  else t

theorem demoteAt_id (a : String) (now : Int) (t : Task) :
    (demoteAt a now t).id = t.id := by
  unfold demoteAt
  by_cases h : (t.id == a) = true
  · rw [if_pos h]
    exact (eq_of_beq h).symm
  · rw [if_neg h]

theorem demoteAt_manualPinned (a : String) (now : Int) (t : Task) :
    (demoteAt a now t).manualPinned = t.manualPinned := by
  unfold demoteAt
  by_cases h : (t.id == a) = true
  · rw [if_pos h]
    rfl
  · rw [if_neg h]

theorem demoteAt_plannedDate (a : String) (now : Int) (t : Task) :
    (demoteAt a now t).plannedDate = t.plannedDate := by
  unfold demoteAt
  by_cases h : (t.id == a) = true
  · rw [if_pos h]
    rfl
  · rw [if_neg h]

theorem demoteAt_createdAt (a : String) (now : Int) (t : Task) :
    (demoteAt a now t).createdAt = t.createdAt := by
  unfold demoteAt
  by_cases h : (t.id == a) = true
  · rw [if_pos h]
    rfl
  · rw [if_neg h]

theorem demoteAt_compare (a : String) (now : Int) (x y : Task) :
    focusCompare (demoteAt a now x) (demoteAt a now y) = focusCompare x y := by
  unfold focusCompare
  rw [demoteAt_manualPinned, demoteAt_manualPinned, demoteAt_plannedDate,
    demoteAt_plannedDate, demoteAt_createdAt, demoteAt_createdAt]

/-- Demoting an active-status task keeps its focus eligibility (both active
and backlog pass the done/archived filter and no other read field moves). -/
theorem demoteAt_eligible (settings : UserSettings) (today : Int) (a : String)
    (now : Int) (t : Task) (hst : t.status = Status.active) :
    focusEligible settings today (demoteAt a now t) =
      focusEligible settings today t := by
  unfold demoteAt
  by_cases h : (t.id == a) = true
  · rw [if_pos h]
    simp [focusEligible, applyTaskPatch, focusDemotePatch, withTimestamps, hst]
  · rw [if_neg h]

/-- Demoting the uniquely identified active task does not change the computed
focus queue. -/
theorem computeFocusQueue_demote (tasks : List Task) (settings : UserSettings)
    (today now : Int) (a : String) (ta : Task)
    (hids : (tasks.map Task.id).Nodup)
    (hfind : tasks.find? (fun t => t.id == a) = Option.some ta)
    (hst : ta.status = Status.active) :
    computeFocusQueue (tasks.map (demoteAt a now)) settings today =
      computeFocusQueue tasks settings today := by
  apply computeFocusQueue_map
  · intro t ht
    by_cases h : (t.id == a) = true
    · have : t = ta := unique_by_id tasks hids a ta hfind t ht (by simpa using h)
      exact demoteAt_eligible settings today a now t (this ▸ hst)
    · unfold demoteAt
      rw [if_neg h]
  · exact demoteAt_compare a now
  · exact demoteAt_id a now

/-- Reconciling the rotated queue (same member set as the computed one,
duplicate-free, active id at the rotated front) returns it unchanged. -/
theorem reconcile_rot_fix (tasks : List Task) (settings : UserSettings)
    (today : Int) (q : List String) (a : String) (hnd : q.Nodup)
    (hmemiff : ∀ x, x ∈ q ↔ x ∈ computeFocusQueue tasks settings today)
    (ha : a ∈ q) :
    reconcileFocusModeState tasks settings
        { enabled := true
        , activeTaskId := Option.some ((q.erase a ++ [a]).headD a)
        , queue := q.erase a ++ [a] } today =
      { enabled := true
      , activeTaskId := Option.some ((q.erase a ++ [a]).headD a)
      , queue := q.erase a ++ [a] } := by
  have hmerge :
      mergeQueueOrder (q.erase a ++ [a]) (computeFocusQueue tasks settings today) =
        q.erase a ++ [a] :=
    mergeQueueOrder_eq_self _ _ (rot_nodup q a hnd)
      (fun x => (rot_mem q a x hnd ha).trans (hmemiff x))
  rw [reconcile_enabled_some tasks settings _ today _ rfl rfl]
  rw [hmerge, if_pos (rot_headD_mem q a)]

/-- The rotation updater fires on an enabled state with the expected active id
and at least two queued entries. -/
theorem skipFocusUpdater_rotates (prev : MomentumState) (a : String)
    (freshFocus : Nat) (hen : prev.focusMode.val.enabled = true)
    (hact : prev.focusMode.val.activeTaskId = Option.some a)
    (hlen : 2 ≤ prev.focusMode.val.queue.length)
    (hamem : a ∈ prev.focusMode.val.queue) :
    skipFocusUpdater a freshFocus prev =
      Option.some
        { emptyPatch with
          focusMode := Option.some
            { ref := freshFocus
            , val :=
              { enabled := true
              , activeTaskId :=
                  Option.some
                    ((prev.focusMode.val.queue.erase a ++ [a]).headD a)
              , queue := prev.focusMode.val.queue.erase a ++ [a] } } } := by
  unfold skipFocusUpdater
  rw [if_neg (by simp [hen]), if_neg (by omega), if_neg (by simp [hact]),
    if_pos hamem, hen]

/-- The rotation updater declines on queues of at most one entry. -/
theorem skipFocusUpdater_noop (prev : MomentumState) (a : String)
    (freshFocus : Nat) (hlen : prev.focusMode.val.queue.length ≤ 1) :
    skipFocusUpdater a freshFocus prev = Option.none := by
  unfold skipFocusUpdater
  by_cases hen : prev.focusMode.val.enabled = false
  · rw [if_pos hen]
  · rw [if_neg hen, if_pos hlen]

/-- Reconciliation only reads the task list through the computed focus
queue. -/
theorem reconcile_congr (t1 t2 : List Task) (settings : UserSettings)
    (fm : FocusModeState) (today : Int)
    (h : computeFocusQueue t1 settings today = computeFocusQueue t2 settings today) :
    reconcileFocusModeState t1 settings fm today =
      reconcileFocusModeState t2 settings fm today := by
  unfold reconcileFocusModeState
  rw [h]

/-- Reduction of `skipFocusTask` once the guards pass and the active task is
found. -/
theorem skipFocusTask_eq_found (prev : MomentumState) (a : String) (ta : Task)
    (freshFocus freshFM1 freshTasks freshFM2 : Nat) (today now : Int)
    (cb : Bool) (hen : prev.focusMode.val.enabled = true)
    (hact : prev.focusMode.val.activeTaskId = Option.some a)
    (hfind : prev.tasks.val.find? (fun t => t.id == a) = Option.some ta) :
    skipFocusTask prev freshFocus freshFM1 freshTasks freshFM2 today now cb =
      (if ta.status = Status.active then
        (updateTaskOp
          (setState prev (skipFocusUpdater a freshFocus prev)
            { persist := true, skipAutoPlan := true } freshFM1 today cb).state
          a focusDemotePatch defaultOptions freshTasks freshFM2 today now cb).state
      else
        (setState prev (skipFocusUpdater a freshFocus prev)
          { persist := true, skipAutoPlan := true } freshFM1 today cb).state) := by
  simp [skipFocusTask, hen, hact, hfind]

/-- Witness for the amended C5 at concrete inputs. -/
theorem claim5_witness :
    (∀ t ∈ (updateTaskOp c5State "a" (handleStatusChangePatch Status.done 50)
        defaultOptions 10 11 100 50 true).state.tasks.val,
      t.id = "a" →
      (Status.done = Status.done →
        t.completedAt = Option.some 50 ∧ t.status = Status.done) ∧
      (Status.done ≠ Status.done →
        t.completedAt = Option.none ∧ t.status = Status.done)) ∧
    (updateTaskStatusOp c5State "a" Status.done 10 11 100 50
        true).state.tasks.val.map (fun t => (t.id, t.completedAt)) =
      c5State.tasks.val.map (fun t => (t.id, t.completedAt)) :=
  ⟨claim5_completedAt_discipline.1 c5State "a" Status.done defaultOptions 10 11
      100 50 true (by decide) (by decide)
  , claim5_completedAt_discipline.2.2 c5State "a" Status.done 10 11 100 50 true⟩

/-- C6 (amended): on a committed (reconciliation-fixed) state with focus mode
enabled, an active id and at least two queued entries, `skipFocusTask`
rotates the active id to the back, makes the new front active, and — when
the pre-call active task's status was active — demotes it to backlog with
the completion stamp cleared; with at most one queued entry the rotation is
skipped, and the call is a full no-op only when the active task's status was
not active: an active-status task is still demoted.  `focusNextTask` is a
full no-op for queues of at most one entry. -/
theorem claim6_skip_semantics :
    (∀ (prev : MomentumState) (a : String) (ta : Task)
        (freshFocus freshFM1 freshTasks freshFM2 : Nat) (today now : Int)
        (callbackPresent : Bool),
      reconcileFocusModeState prev.tasks.val prev.settings.val
          prev.focusMode.val today = prev.focusMode.val →
      prev.focusMode.val.enabled = true →
      prev.focusMode.val.activeTaskId = Option.some a →
      prev.tasks.val.find? (fun t => t.id == a) = Option.some ta →
      (prev.tasks.val.map Task.id).Nodup →
      freshFM1 ≠ prev.focusMode.ref →
      freshFM2 ≠ freshFM1 →
      2 ≤ prev.focusMode.val.queue.length →
      ((skipFocusTask prev freshFocus freshFM1 freshTasks freshFM2 today now
          callbackPresent).focusMode.val.queue =
        prev.focusMode.val.queue.erase a ++ [a] ∧
      (skipFocusTask prev freshFocus freshFM1 freshTasks freshFM2 today now
          callbackPresent).focusMode.val.activeTaskId =
        Option.some ((prev.focusMode.val.queue.erase a ++ [a]).headD a) ∧
      (ta.status = Status.active →
        (skipFocusTask prev freshFocus freshFM1 freshTasks freshFM2 today now
            callbackPresent).tasks.val =
          prev.tasks.val.map (demoteAt a now) ∧
        ∀ t ∈ (skipFocusTask prev freshFocus freshFM1 freshTasks freshFM2 today
            now callbackPresent).tasks.val,
          t.id = a → t.status = Status.backlog ∧ t.completedAt = Option.none) ∧
      (ta.status ≠ Status.active →
        (skipFocusTask prev freshFocus freshFM1 freshTasks freshFM2 today now
            callbackPresent).tasks.val = prev.tasks.val))) ∧
    (∀ (prev : MomentumState) (a : String) (ta : Task)
        (freshFocus freshFM1 freshTasks freshFM2 : Nat) (today now : Int)
        (callbackPresent : Bool),
      prev.focusMode.val.enabled = true →
      prev.focusMode.val.activeTaskId = Option.some a →
      prev.tasks.val.find? (fun t => t.id == a) = Option.some ta →
      prev.focusMode.val.queue.length ≤ 1 →
      ta.status ≠ Status.active →
      skipFocusTask prev freshFocus freshFM1 freshTasks freshFM2 today now
        callbackPresent = prev) ∧
    (∀ (prev : MomentumState) (a : String) (ta : Task)
        (freshFocus freshFM1 freshTasks freshFM2 : Nat) (today now : Int)
        (callbackPresent : Bool),
      reconcileFocusModeState prev.tasks.val prev.settings.val
          prev.focusMode.val today = prev.focusMode.val →
      prev.focusMode.val.enabled = true →
      prev.focusMode.val.activeTaskId = Option.some a →
      prev.tasks.val.find? (fun t => t.id == a) = Option.some ta →
      (prev.tasks.val.map Task.id).Nodup →
      freshFM2 ≠ prev.focusMode.ref →
      prev.focusMode.val.queue.length ≤ 1 →
      ta.status = Status.active →
      (skipFocusTask prev freshFocus freshFM1 freshTasks freshFM2 today now
          callbackPresent).tasks.val = prev.tasks.val.map (demoteAt a now) ∧
      (skipFocusTask prev freshFocus freshFM1 freshTasks freshFM2 today now
          callbackPresent).focusMode.val = prev.focusMode.val) ∧
    (∀ (prev : MomentumState)
        (freshFocus freshFM1 freshTasks freshFM2 : Nat) (today now : Int)
        (callbackPresent : Bool),
      prev.focusMode.val.queue.length ≤ 1 →
      focusNextTask prev freshFocus freshFM1 freshTasks freshFM2 today now
        callbackPresent = prev) := by
  refine ⟨?_, ?_, ?_, ?_⟩
  · intro prev a ta fF fFM1 fT fFM2 today now cb hfix hen hact hfind hids hf1
      hf2 hlen
    have hamem : a ∈ prev.focusMode.val.queue :=
      fixpoint_active_mem _ _ _ _ hen hfix a hact
    obtain ⟨hnodup, hmemiff⟩ := fixpoint_queue_props _ _ _ _ hen hfix
    have hrec1 : reconcileFocusModeState prev.tasks.val prev.settings.val
        { enabled := true
        , activeTaskId :=
            Option.some ((prev.focusMode.val.queue.erase a ++ [a]).headD a)
        , queue := prev.focusMode.val.queue.erase a ++ [a] } today =
        { enabled := true
        , activeTaskId :=
            Option.some ((prev.focusMode.val.queue.erase a ++ [a]).headD a)
        , queue := prev.focusMode.val.queue.erase a ++ [a] } :=
      reconcile_rot_fix prev.tasks.val prev.settings.val today
        prev.focusMode.val.queue a hnodup hmemiff hamem
    by_cases hst : ta.status = Status.active
    · have hpta : (ta.id == a) = true := by
        have hh := List.find?_some hfind
        simpa using hh
      have hufind : updateFirst (fun t => t.id == a)
          (fun t => withTimestamps
            { applyTaskPatch t focusDemotePatch with id := a } false now)
          prev.tasks.val =
          Option.some (prev.tasks.val.map (demoteAt a now)) := by
        rw [updateFirst_eq_map _ _ _ (filter_id_count _ _ hids) ta
          (List.mem_of_find?_eq_some hfind) hpta]
        rfl
      have hfinal : skipFocusTask prev fF fFM1 fT fFM2 today now cb =
          { tasks := { ref := fT, val := prev.tasks.val.map (demoteAt a now) }
          , settings := prev.settings
          , focusMode :=
              { ref := fFM2
              , val :=
                { enabled := true
                , activeTaskId :=
                    Option.some
                      ((prev.focusMode.val.queue.erase a ++ [a]).headD a)
                , queue := prev.focusMode.val.queue.erase a ++ [a] } }
          , autoPlanEnabled := prev.autoPlanEnabled
          , session := prev.session } := by
        rw [skipFocusTask_eq_found prev a ta fF fFM1 fT fFM2 today now cb hen
          hact hfind]
        rw [skipFocusUpdater_rotates prev a fF hen hact hlen hamem]
        rw [setState_of_fresh prev _ _ fFM1 today cb hf1]
        simp only [applyPatch, emptyPatch, Option.getD_some, Option.getD_none]
        rw [hrec1, if_pos hst]
        unfold updateTaskOp updateTaskUpdater
        rw [hufind]
        rw [setState_of_fresh _ _ _ fFM2 today cb hf2]
        simp only [applyPatch, emptyPatch, Option.getD_some, Option.getD_none]
        rw [reconcile_congr _ prev.tasks.val prev.settings.val _ today
          (computeFocusQueue_demote prev.tasks.val prev.settings.val today now
            a ta hids hfind hst), hrec1]
      rw [hfinal]
      refine ⟨rfl, rfl, fun _ => ⟨rfl, ?_⟩, fun hne => absurd hst hne⟩
      intro t htmem hid
      rcases List.mem_map.mp htmem with ⟨x, hx, rfl⟩
      unfold demoteAt at hid ⊢
      by_cases hpx : (x.id == a) = true
      · rw [if_pos hpx]
        exact ⟨rfl, rfl⟩
      · rw [if_neg hpx] at hid
        exact absurd (by simpa using hid) (by simpa using hpx)
    · have hfinal : skipFocusTask prev fF fFM1 fT fFM2 today now cb =
          { tasks := prev.tasks
          , settings := prev.settings
          , focusMode :=
              { ref := fFM1
              , val :=
                { enabled := true
                , activeTaskId :=
                    Option.some
                      ((prev.focusMode.val.queue.erase a ++ [a]).headD a)
                , queue := prev.focusMode.val.queue.erase a ++ [a] } }
          , autoPlanEnabled := prev.autoPlanEnabled
          , session := prev.session } := by
        rw [skipFocusTask_eq_found prev a ta fF fFM1 fT fFM2 today now cb hen
          hact hfind]
        rw [skipFocusUpdater_rotates prev a fF hen hact hlen hamem]
        rw [setState_of_fresh prev _ _ fFM1 today cb hf1]
        simp only [applyPatch, emptyPatch, Option.getD_some, Option.getD_none]
        rw [hrec1, if_neg hst]
      rw [hfinal]
      exact ⟨rfl, rfl, fun h => absurd h hst, fun _ => rfl⟩
  · intro prev a ta fF fFM1 fT fFM2 today now cb hen hact hfind hlen hst
    rw [skipFocusTask_eq_found prev a ta fF fFM1 fT fFM2 today now cb hen hact
      hfind]
    rw [if_neg hst, skipFocusUpdater_noop prev a fF hlen]
    rfl
  · intro prev a ta fF fFM1 fT fFM2 today now cb hfix hen hact hfind hids hf2
      hlen hst
    have hpta : (ta.id == a) = true := by
      have hh := List.find?_some hfind
      simpa using hh
    have hufind : updateFirst (fun t => t.id == a)
        (fun t => withTimestamps
          { applyTaskPatch t focusDemotePatch with id := a } false now)
        prev.tasks.val =
        Option.some (prev.tasks.val.map (demoteAt a now)) := by
      rw [updateFirst_eq_map _ _ _ (filter_id_count _ _ hids) ta
        (List.mem_of_find?_eq_some hfind) hpta]
      rfl
    have hfinal : skipFocusTask prev fF fFM1 fT fFM2 today now cb =
        { tasks := { ref := fT, val := prev.tasks.val.map (demoteAt a now) }
        , settings := prev.settings
        , focusMode := { ref := fFM2, val := prev.focusMode.val }
        , autoPlanEnabled := prev.autoPlanEnabled
        , session := prev.session } := by
      rw [skipFocusTask_eq_found prev a ta fF fFM1 fT fFM2 today now cb hen
        hact hfind]
      rw [if_pos hst, skipFocusUpdater_noop prev a fF hlen]
      rw [show (setState prev Option.none
        { persist := true, skipAutoPlan := true } fFM1 today cb).state = prev
        from rfl]
      unfold updateTaskOp updateTaskUpdater
      rw [hufind]
      rw [setState_of_fresh _ _ _ fFM2 today cb hf2]
      simp only [applyPatch, emptyPatch, Option.getD_some, Option.getD_none]
      rw [reconcile_congr _ prev.tasks.val prev.settings.val _ today
        (computeFocusQueue_demote prev.tasks.val prev.settings.val today now a
          ta hids hfind hst), hfix]
    rw [hfinal]
    exact ⟨rfl, rfl⟩
  · intro prev fF fFM1 fT fFM2 today now cb hlen
    cases hen : prev.focusMode.val.enabled with
    | false => simp [focusNextTask, hen]
    | true =>
      cases hact : prev.focusMode.val.activeTaskId with
      | none => simp [focusNextTask, hen, hact]
      | some a => simp [focusNextTask, hen, hact, hlen]

/-- An active-status task eligible for today, the sole focus-queue entry. -/
def c6Task : Task :=
  { id := "a", title := "A", priority := Priority.medium
  , status := Status.active, createdAt := 10, updatedAt := Option.none
  , plannedDate := Option.some 100, manualPinned := false
  , orderIndex := Option.none, atRisk := false, completedAt := Option.none }

/-- Focus-enabled state whose queue holds exactly the active task. -/
def c6State : MomentumState :=
  { tasks := { ref := 0, val := [c6Task] }
  , settings := { ref := 1, val := DEFAULT_USER_SETTINGS }
  , focusMode :=
      { ref := 2
      , val := { enabled := true, activeTaskId := Option.some "a", queue := ["a"] } }
  , autoPlanEnabled := true
  , session := { ref := 3, val := createDefaultSession } }

/-- Counterexample to C6: with a one-entry queue and an active-status task,
`skipFocusTask` is not a no-op — the demotion `updateTask` still runs and
sends the task back to backlog. -/
theorem claim6_counterexample :
    c6State.focusMode.val.queue.length = 1 ∧
    skipFocusTask c6State 20 21 22 23 100 50 true ≠ c6State ∧
    (skipFocusTask c6State 20 21 22 23 100 50 true).tasks.val.map Task.status =
      [Status.backlog] := by
  decide

/-- Second eligible task, queued behind the active one. -/
def c6TaskB : Task :=
  { c6Task with id := "b", createdAt := 20, status := Status.backlog }

/-- Committed (reconciliation-fixed) state with a two-entry focus queue. -/
def c6State2 : MomentumState :=
  { tasks := { ref := 0, val := [c6Task, c6TaskB] }
  , settings := { ref := 1, val := DEFAULT_USER_SETTINGS }
  , focusMode :=
      { ref := 2
      , val :=
        { enabled := true, activeTaskId := Option.some "a", queue := ["a", "b"] } }
  , autoPlanEnabled := true
  , session := { ref := 3, val := createDefaultSession } }

/-- Witness for the amended C6: a concrete rotation and a concrete
`focusNextTask` no-op. -/
theorem claim6_witness :
    (skipFocusTask c6State2 20 21 22 23 100 50 true).focusMode.val.queue =
      c6State2.focusMode.val.queue.erase "a" ++ ["a"] ∧
    focusNextTask c6State 20 21 22 23 100 50 true = c6State :=
  ⟨(claim6_skip_semantics.1 c6State2 "a" c6Task 20 21 22 23 100 50 true
      (by decide) (by decide) (by decide) (by decide) (by decide) (by decide)
      (by decide) (by decide)).1
  , claim6_skip_semantics.2.2.2 c6State 20 21 22 23 100 50 true (by decide)⟩

end Momentum





